import Mathlib

/-!
# THU-OS system-call layer (`os/syscall.c`)

A shallow embedding of the handlers of `os/syscall.c` and of the dispatcher
`syscall()`, followed by theorems about them.

Conventions of the embedding:

* `uint64` values are `Nat`s below `2 ^ 64`; every `uint64` addition of the
  source is followed by an explicit `% U64`.  The `uint64` value of `-1` is
  `ERR = 2 ^ 64 - 1`.
* `int` and `long long` values are `Int`s; the conversions the C code performs
  implicitly (`uint64` to `int`, `int` to `uint64`) are the explicit functions
  `toInt32`, `toInt64` and `toU64`.
* kernel state is passed explicitly (`Kernel`); `curr_proc()` is the field `p`.
* a handler returns `Except Stop (value × Kernel)`: `Stop` collects the ways in
  which a call does not return to its caller (an array access outside the
  array, `panic`, the diverging `exit`, and the fuel of a loop model running
  out).
* the loops of `sys_mmap`, `sys_munmap` and `sys_exec` run on `uint64` counters
  that can wrap around, so they are modelled with a fuel argument.
* diagnostic output (`tracef`, `debugf`, `errorf`) is not modelled.
* the collaborators of the handlers are not part of `os/syscall.c`.  The
  page-table, allocator and directory primitives that the theorems need are
  modelled from the specification (definitions marked "Modelled from the
  spec"); all others are the fields of the parameter `Env`.
-/

namespace THUOS

/-! ## Constants -/

/-- Modelled from the spec: the fixed page size (`PAGE_SIZE` of `riscv.h`, which
is not part of the visible source); 4096 bytes on RISC-V Sv39. -/
def PAGE_SIZE : Nat := 4096

/-- Modelled from the spec: the "valid" bit of a page-table entry (`PTE_V`,
`1 << 0` on RISC-V). -/
def PTE_V : Nat := 1

/-- Modelled from the spec: the "user-accessible" permission flag of a
page-table entry (`PTE_U`, `1 << 4` on RISC-V). -/
def PTE_U : Nat := 16

/-- The number of `uint64` values. -/
def U64 : Nat := 2 ^ 64

/-- The `uint64` value of the C expression `-1`: the failure sentinel. -/
def ERR : Nat := 2 ^ 64 - 1

/-- Conversion of a `uint64` to `int` (low 32 bits, two's complement). -/
def toInt32 (x : Nat) : Int :=
  if x % 2 ^ 32 < 2 ^ 31 then (x % 2 ^ 32 : Nat) else (x % 2 ^ 32 : Nat) - 2 ^ 32

/-- Conversion of a `uint64` to `long long` (two's complement). -/
def toInt64 (x : Nat) : Int :=
  if x % 2 ^ 64 < 2 ^ 63 then (x % 2 ^ 64 : Nat) else (x % 2 ^ 64 : Nat) - 2 ^ 64

/-- Conversion of a signed integer to `uint64` (sign extension, modulo `2 ^ 64`). -/
def toU64 (i : Int) : Nat := (i % 2 ^ 64).toNat

/-- The 32-bit two's complement pattern of an `int`. -/
def toU32 (i : Int) : Nat := (i % 2 ^ 32).toNat

/-- The C operator `&` on `int` operands. -/
def int_and (a b : Int) : Int := toInt32 (toU32 a &&& toU32 b)

/-- The C operator `|` on `int` operands. -/
def int_or (a b : Int) : Int := toInt32 (toU32 a ||| toU32 b)

/-- The C operator `~` on an `int` operand. -/
def int_not (a : Int) : Int := toInt32 (2 ^ 32 - 1 - toU32 a)

/-- The C operator `<<` on an `int` left operand (the bits shifted out of the 32
are dropped). -/
def int_shl (a : Int) (n : Nat) : Int := toInt32 (toU32 a <<< n)

/-- The configuration constants of the headers that are not part of the visible
source (`defs.h`, `syscall_ids.h`, `proc.h`, `timer.h`): they are parameters of
the embedding. -/
structure Consts where
  FD_BUFFER_SIZE : Nat
  MAX_STR_LEN : Nat
  MAX_ARG_NUM : Nat
  MAX_SYSCALL_NUM : Nat
  BIGSTRIDE : Nat
  IDLE_PID : Nat
  CPU_FREQ : Nat
  T_DIR : Nat
  SYS_write : Int
  SYS_read : Int
  SYS_openat : Int
  SYS_close : Int
  SYS_exit : Int
  SYS_sched_yield : Int
  SYS_gettimeofday : Int
  SYS_getpid : Int
  SYS_getppid : Int
  SYS_clone : Int
  SYS_execve : Int
  SYS_wait4 : Int
  SYS_fstat : Int
  SYS_linkat : Int
  SYS_unlinkat : Int
  SYS_spawn : Int
  SYS_setpriority : Int
  SYS_sbrk : Int
  SYS_task_info : Int
  SYS_mmap : Int
  SYS_munmap : Int

/-! ## Data model -/

/-- A leaf page-table entry: the physical page it points to and its flag bits
(`PTE2PA (*pte)` and `PTE_FLAGS (*pte)`).  The C assignment `*pte = 0` is the
entry with both components zero. -/
structure pte_t where
  pa : Nat
  flags : Nat
  deriving DecidableEq, Repr

/-- Modelled from the spec: a per-process mapping from virtual page number to
page-table entry.  `none` at a page number means that `walk` finds no entry
for it (it returns the null pointer). -/
abbrev pagetable_t := Nat → Option pte_t

/-- The registers of the trap frame that `syscall()` uses. -/
structure trapframe where
  a0 : Nat
  a1 : Nat
  a2 : Nat
  a3 : Nat
  a4 : Nat
  a5 : Nat
  a7 : Nat

/-- The tag of a file handle; `FD_OTHER` stands for every value that is neither
`FD_STDIO` nor `FD_INODE`. -/
inductive file_type where
  | FD_STDIO
  | FD_INODE
  | FD_OTHER
  deriving DecidableEq, Repr

/-- A file handle: its tag and, for inode-backed handles, the inode it refers to
(the inode pointer is modelled by the inode number). -/
structure file where
  type : file_type
  ip : Nat
  deriving DecidableEq, Repr

/-- An inode of the kernel-wide cache: device id, type, link count and the
number of references obtained by "get" and not yet "put".  The cache is keyed
by the inode number, which also stands for the inode pointer: `ip->inum` is the
key `ip` itself. -/
structure inode where
  dev : Nat
  type : Nat
  nlink : Nat
  ref : Nat
  deriving DecidableEq, Repr

/-- The process structure (`struct proc`), with the fields the system-call layer
reads or writes.  `parent` holds the pid of the parent (`none` is the null
pointer); `files` is the descriptor table, of which only the slots below
`FD_BUFFER_SIZE` exist. -/
structure proc where
  pid : Nat
  parent : Option Nat
  pass : Int
  pagetable : pagetable_t
  trapframe : trapframe
  files : Nat → Option file
  syscall_times : List Nat
  start_time : Nat
  program_brk : Nat
  max_page : Nat

/-- The kernel state seen by the system-call layer: the current process, the
free list of the physical page allocator, physical memory (read by 8-byte
words), the inode cache with its persisted copy, and the root directory
(`none` when `root_dir()` returns the null pointer). -/
structure Kernel where
  p : proc
  kmem : List Nat
  pmem : Nat → Nat
  inodes : Nat → inode
  disk : Nat → inode
  root : Option (List Nat → Option Nat)

/-- The ways in which a handler does not return to its caller. -/
inductive Stop where
  | out_of_fuel
  | oob_files (i : Int)
  | oob_argv (i : Nat)
  | oob_str (i : Nat)
  | kernel_panic
  | exited (code : Int)
  deriving DecidableEq, Repr

/-- The result of a handler: a return value and the state it leaves, or a
`Stop`. -/
abbrev Res (α : Type) := Except Stop (α × Kernel)

/-! ## Address-space collaborators -/

/-- Modelled from the spec: "page-aligned: an exact multiple of the fixed page
size" (`PGALIGNED` of `riscv.h`). -/
def PGALIGNED (a : Nat) : Bool := a % PAGE_SIZE = 0

/-- Modelled from the spec: round a `uint64` up to the next multiple of the page
size (`PGROUNDUP` of `riscv.h`: `(sz + PGSIZE - 1) & ~(PGSIZE - 1)`). -/
def PGROUNDUP (sz : Nat) : Nat := (sz + PAGE_SIZE - 1) % U64 / PAGE_SIZE * PAGE_SIZE

/-- Modelled from the spec: the page-table walk without allocation, `walk
(pagetable, va, 0)`: the entry of the page of `va`, or `none`. -/
def walk (pagetable : pagetable_t) (va : Nat) : Option pte_t :=
  pagetable (va / PAGE_SIZE)

/-- Modelled from the spec: translation of a user virtual address
(`useraddr`): the physical address when the page has a valid, user-accessible
entry with a non-null physical page, and `0` otherwise. -/
def useraddr (pagetable : pagetable_t) (va : Nat) : Nat :=
  match walk pagetable va with
  | none => 0
  | some pte =>
    if pte.flags &&& PTE_V = 0 then 0
    else if pte.flags &&& PTE_U = 0 then 0
    else if pte.pa = 0 then 0
    else pte.pa + va % PAGE_SIZE

/-- Modelled from the spec: physical page allocation (`kalloc`): the head of the
free list, or `0` when the free list is empty. -/
def kalloc (K : Kernel) : Nat × Kernel :=
  match K.kmem with
  | [] => (0, K)
  | pa :: rest => (pa, { K with kmem := rest })

/-- Modelled from the spec: physical page release (`kfree`): the page goes back
to the free list. -/
def kfree (K : Kernel) (pa : Nat) : Kernel :=
  { K with kmem := pa :: K.kmem }

/-- Modelled from the spec: installation of one page (`mappages (pagetable, va,
PAGE_SIZE, pa, perm)` with a page-aligned `va`): it stores the physical page
with the flags `perm | PTE_V`.  The spec leaves open when installation fails;
here it fails (`none`, the C result `-1`) exactly when the entry is valid
already, the one failure a flat page table can have. -/
def mappages (pagetable : pagetable_t) (va pa perm : Nat) : Option pagetable_t :=
  match walk pagetable va with
  | some pte =>
    if pte.flags &&& PTE_V ≠ 0 then none
    else some (Function.update pagetable (va / PAGE_SIZE) (some ⟨pa, perm ||| PTE_V⟩))
  | none => some (Function.update pagetable (va / PAGE_SIZE) (some ⟨pa, perm ||| PTE_V⟩))

/-- The current process with a new page table. -/
def set_pagetable (K : Kernel) (pt : pagetable_t) : Kernel :=
  { K with p := { K.p with pagetable := pt } }

/-- The current process with a new high-water mark. -/
def set_max_page (K : Kernel) (m : Nat) : Kernel :=
  { K with p := { K.p with max_page := m } }

/-! ## `sys_mmap` and `sys_munmap` -/

/-- The loop of `sys_mmap`: `for (va = start; va < end; va += PAGE_SIZE)`.  The
result `true` is the normal end of the loop, `false` is one of its
`return -1` statements. -/
def mmap_loop (perm va_end : Nat) : Nat → Kernel → Nat → Res Bool
  | 0, _, _ => .error .out_of_fuel
  | fuel + 1, K, va =>
    if va < va_end then
      if useraddr K.p.pagetable va ≠ 0 then .ok (false, K)
      else
        let r := kalloc K
        if r.1 = 0 then .ok (false, r.2)
        else
          match mappages r.2.p.pagetable va r.1 perm with
          | none => .ok (false, r.2)
          | some pt => mmap_loop perm va_end fuel (set_pagetable r.2 pt) ((va + PAGE_SIZE) % U64)
    else .ok (true, K)

/-- The handler `sys_mmap (start, len, prot, flag, fd)`. -/
def sys_mmap (fuel : Nat) (K : Kernel) (start len : Nat) (prot _flag _fd : Int) : Res Nat :=
  if len = 0 then .ok (0, K)
  else if ¬ PGALIGNED start then .ok (ERR, K)
  else if int_and prot (int_not 7) ≠ 0 then .ok (ERR, K)
  else if int_and prot 7 = 0 then .ok (ERR, K)
  else
    let perm := int_or (int_shl prot 1) PTE_U
    let va_end := (start + len) % U64
    match mmap_loop perm.toNat va_end fuel K start with
    | .error e => .error e
    | .ok (false, K1) => .ok (ERR, K1)
    | .ok (true, K1) =>
      .ok (0, set_max_page K1 (max K1.p.max_page (PGROUNDUP va_end / PAGE_SIZE)))

/-- The loop of `sys_munmap`, with the same conventions as `mmap_loop`. -/
def munmap_loop (va_end : Nat) : Nat → Kernel → Nat → Res Bool
  | 0, _, _ => .error .out_of_fuel
  | fuel + 1, K, va =>
    if va < va_end then
      match walk K.p.pagetable va with
      | none => .ok (false, K)
      | some pte =>
        if pte.flags &&& PTE_V = 0 ∨ pte.flags &&& PTE_U = 0 then .ok (false, K)
        else
          let K1 := kfree K pte.pa
          munmap_loop va_end fuel
            (set_pagetable K1 (Function.update K1.p.pagetable (va / PAGE_SIZE) (some ⟨0, 0⟩)))
            ((va + PAGE_SIZE) % U64)
    else .ok (true, K)

/-- The handler `sys_munmap (start, len)`. -/
def sys_munmap (fuel : Nat) (K : Kernel) (start len : Nat) : Res Nat :=
  if len = 0 then .ok (0, K)
  else if ¬ PGALIGNED start then .ok (ERR, K)
  else
    let va_end := (start + len) % U64
    match munmap_loop va_end fuel K start with
    | .error e => .error e
    | .ok (false, K1) => .ok (ERR, K1)
    | .ok (true, K1) =>
      if K1.p.max_page = PGROUNDUP va_end / PAGE_SIZE then
        .ok (0, set_max_page K1 (start / PAGE_SIZE))
      else .ok (0, K1)

/-! ## Collaborators outside the visible source -/

/-- The collaborators whose code is not part of the visible source and whose
behaviour no theorem below depends on: they are parameters.  `copyinstr K va
max` is the byte string copied in from user address `va` (at most `max` bytes,
without the terminator); every other function takes the kernel state and gives
back its C result and the state it leaves. -/
structure Env where
  copyinstr : Kernel → Nat → Nat → List Nat
  copyout : Kernel → Nat → List Nat → Kernel
  console_putchar : Kernel → Nat → Kernel
  consgetc : Kernel → Nat × Kernel
  inodewrite : Kernel → file → Nat → Nat → Int × Kernel
  inoderead : Kernel → file → Nat → Nat → Int × Kernel
  yield : Kernel → Kernel
  get_cycle : Kernel → Nat
  get_time : Kernel → Nat
  fork : Kernel → Int × Kernel
  exec : Kernel → List Nat → List (List Nat) → Int × Kernel
  wait : Kernel → Int → Nat → Int × Kernel
  spawn : Kernel → List Nat → Int × Kernel
  fileopen : Kernel → List Nat → Nat → Int × Kernel
  fileclose : Kernel → file → Kernel
  growproc : Kernel → Int → Int × Kernel

/-! ## File-system collaborators -/

/-- Modelled from the spec: obtaining an inode is an explicit "get" (`iget`): one
more reference on the cached inode. -/
def iget (K : Kernel) (ip : Nat) : Kernel :=
  { K with inodes :=
      Function.update K.inodes ip { (K.inodes ip) with ref := (K.inodes ip).ref + 1 } }

/-- Modelled from the spec: "look up the old name in the root directory"
(`dirlookup`): the inode number the directory gives to the name, with one
reference taken on that inode; `none` is the null pointer. -/
def dirlookup (K : Kernel) (dp : List Nat → Option Nat) (name : List Nat) :
    Option Nat × Kernel :=
  match dp name with
  | none => (none, K)
  | some inum => (some inum, iget K inum)

/-- Modelled from the spec: "load/validate the inode" (`ivalid`): the cache is
taken to hold the inode's values already, the fields stay as they are. -/
def ivalid (K : Kernel) (_ip : Nat) : Kernel := K

/-- Modelled from the spec: "persist the change" (`iupdate`): the cached inode
is written to its persisted copy. -/
def iupdate (K : Kernel) (ip : Nat) : Kernel :=
  { K with disk := Function.update K.disk ip (K.inodes ip) }

/-- Modelled from the spec: "create a new directory entry under the new name
pointing at the same inode" (`dirlink` on the root directory). -/
def dirlink (K : Kernel) (dp : List Nat → Option Nat) (name : List Nat) (inum : Nat) :
    Kernel :=
  { K with root := some (Function.update dp name (some inum)) }

/-- Modelled from the spec: "remove the directory entry" (`dirunlink` on the
root directory). -/
def dirunlink (K : Kernel) (dp : List Nat → Option Nat) (name : List Nat) : Kernel :=
  { K with root := some (Function.update dp name none) }

/-- Modelled from the spec: "release the inode reference" (`iput`): the "put"
that matches a "get". -/
def iput (K : Kernel) (ip : Nat) : Kernel :=
  { K with inodes :=
      Function.update K.inodes ip { (K.inodes ip) with ref := (K.inodes ip).ref - 1 } }

/-- The cached inode with a new link count (`ip->nlink = n`). -/
def set_nlink (K : Kernel) (ip n : Nat) : Kernel :=
  { K with inodes := Function.update K.inodes ip { (K.inodes ip) with nlink := n } }

/-! ## File descriptor layer -/

/-- The array read `p->files[fd]`: the table has the slots `0 .. FD_BUFFER_SIZE -
1`; a read at another index is outside the array. -/
def files_get (c : Consts) (K : Kernel) (fd : Int) : Except Stop (Option file) :=
  if 0 ≤ fd ∧ fd < c.FD_BUFFER_SIZE then .ok (K.p.files fd.toNat)
  else .error (.oob_files fd)

/-- The handler-local helper `console_write (va, len)`. -/
def console_write (c : Consts) (env : Env) (K : Kernel) (va len : Nat) : Res Nat :=
  let str := env.copyinstr K va (min len c.MAX_STR_LEN)
  .ok (len, str.foldl env.console_putchar K)

/-- The loop of `console_read`: `for (i = 0; i < len; ++i) str[i] = consgetc ()`,
where `str` has `MAX_STR_LEN` elements. -/
def console_read_loop (c : Consts) (env : Env) :
    Nat → Nat → Kernel → List Nat → Except Stop (List Nat × Kernel)
  | 0, _, K, str => .ok (str, K)
  | n + 1, i, K, str =>
    if i < c.MAX_STR_LEN then
      let r := env.consgetc K
      console_read_loop c env n (i + 1) r.2 (str ++ [r.1])
    else .error (.oob_str i)

/-- The handler-local helper `console_read (va, len)`. -/
def console_read (c : Consts) (env : Env) (K : Kernel) (va len : Nat) : Res Nat :=
  match console_read_loop c env len 0 K [] with
  | .error e => .error e
  | .ok (str, K1) => .ok (len, env.copyout K1 va str)

/-- The handler `sys_write (fd, va, len)`. -/
def sys_write (c : Consts) (env : Env) (K : Kernel) (fd : Int) (va len : Nat) : Res Nat :=
  if fd < 0 ∨ fd > c.FD_BUFFER_SIZE then .ok (ERR, K)
  else
    match files_get c K fd with
    | .error e => .error e
    | .ok none => .ok (ERR, K)
    | .ok (some f) =>
      match f.type with
      | file_type.FD_STDIO => console_write c env K va len
      | file_type.FD_INODE =>
        let r := env.inodewrite K f va len
        .ok (toU64 r.1, r.2)
      | file_type.FD_OTHER => .error .kernel_panic

/-- The handler `sys_read (fd, va, len)`. -/
def sys_read (c : Consts) (env : Env) (K : Kernel) (fd : Int) (va len : Nat) : Res Nat :=
  if fd < 0 ∨ fd > c.FD_BUFFER_SIZE then .ok (ERR, K)
  else
    match files_get c K fd with
    | .error e => .error e
    | .ok none => .ok (ERR, K)
    | .ok (some f) =>
      match f.type with
      | file_type.FD_STDIO => console_read c env K va len
      | file_type.FD_INODE =>
        let r := env.inoderead K f va len
        .ok (toU64 r.1, r.2)
      | file_type.FD_OTHER => .error .kernel_panic

/-- The slot `p->files[fd]` with a new content. -/
def set_file (K : Kernel) (fd : Nat) (f : Option file) : Kernel :=
  { K with p := { K.p with files := Function.update K.p.files fd f } }

/-- The handler `sys_close (fd)`. -/
def sys_close (c : Consts) (env : Env) (K : Kernel) (fd : Int) : Res Nat :=
  if fd < 0 ∨ fd > c.FD_BUFFER_SIZE then .ok (ERR, K)
  else
    match files_get c K fd with
    | .error e => .error e
    | .ok none => .ok (ERR, K)
    | .ok (some f) => .ok (0, set_file (env.fileclose K f) fd.toNat none)

/-- The handler `sys_fstat (fd, stat)`; the record copied out is `dev`, `ino`,
`mode`, `nlink` and seven words of padding. -/
def sys_fstat (c : Consts) (env : Env) (K : Kernel) (fd : Int) (stat : Nat) : Res Int :=
  if fd < 0 ∨ fd > c.FD_BUFFER_SIZE then .ok (-1, K)
  else
    match files_get c K fd with
    | .error e => .error e
    | .ok none => .ok (-1, K)
    | .ok (some f) =>
      let K1 := ivalid K f.ip
      let ip := K1.inodes f.ip
      let mode := if ip.type = c.T_DIR then 0x040000 else 0x100000
      .ok (0, env.copyout K1 stat ([ip.dev, f.ip, mode, ip.nlink] ++ List.replicate 7 0))

/-- The handler `sys_openat (va, omode, _flags)`. -/
def sys_openat (env : Env) (K : Kernel) (va omode _flags : Nat) : Res Nat :=
  let path := env.copyinstr K va 200
  let r := env.fileopen K path omode
  .ok (toU64 r.1, r.2)

/-! ## File-system handlers -/

/-- The handler `sys_linkat (olddirfd, oldpath, newdirfd, newpath, flags)`. -/
def sys_linkat (env : Env) (K : Kernel) (_olddirfd : Int) (oldpath : Nat) (_newdirfd : Int)
    (newpath _flags : Nat) : Res Int :=
  let oldname := env.copyinstr K oldpath 200
  let newname := env.copyinstr K newpath 200
  match K.root with
  | none => .ok (-1, K)
  | some dp =>
    match dirlookup K dp oldname with
    | (none, K1) => .ok (-1, K1)
    | (some ip, K1) =>
      let K2 := ivalid K1 ip
      let K3 := set_nlink K2 ip ((K2.inodes ip).nlink + 1)
      let K4 := iupdate K3 ip
      let K5 := dirlink K4 dp newname ip
      .ok (0, iput K5 ip)

/-- The handler `sys_unlinkat (dirfd, path, flags)`. -/
def sys_unlinkat (env : Env) (K : Kernel) (_dirfd : Int) (path _flags : Nat) : Res Int :=
  let name := env.copyinstr K path 200
  match K.root with
  | none => .ok (-1, K)
  | some dp =>
    match dirlookup K dp name with
    | (none, K1) => .ok (-1, K1)
    | (some ip, K1) =>
      let K2 := ivalid K1 ip
      let K3 := set_nlink K2 ip ((K2.inodes ip).nlink - 1)
      let K4 := iupdate K3 ip
      let K5 := dirunlink K4 dp name
      .ok (0, iput K5 ip)

/-! ## Process handlers -/

/-- The handler `sys_exit (code)`: it does not return. -/
def sys_exit (code : Int) : Res Nat := .error (.exited code)

/-- The handler `sys_sched_yield ()`. -/
def sys_sched_yield (env : Env) (K : Kernel) : Res Nat := .ok (0, env.yield K)

/-- The handler `sys_gettimeofday (val, _tz)`; the record copied out is `sec`,
`usec`. -/
def sys_gettimeofday (c : Consts) (env : Env) (K : Kernel) (val : Nat) (_tz : Int) : Res Nat :=
  let cycle := env.get_cycle K
  let sec := cycle / c.CPU_FREQ
  let usec := (cycle % c.CPU_FREQ) * 1000000 % U64 / c.CPU_FREQ
  .ok (0, env.copyout K val [sec, usec])

/-- The handler `sys_getpid ()`. -/
def sys_getpid (K : Kernel) : Res Nat := .ok (K.p.pid, K)

/-- The handler `sys_getppid ()`. -/
def sys_getppid (c : Consts) (K : Kernel) : Res Nat :=
  match K.p.parent with
  | none => .ok (c.IDLE_PID, K)
  | some ppid => .ok (ppid, K)

/-- The handler `sys_clone ()`. -/
def sys_clone (env : Env) (K : Kernel) : Res Nat :=
  let r := env.fork K
  .ok (toU64 r.1, r.2)

/-- The helper `fetchaddr (pagetable, va)`: the word of physical memory at the
translation of `va`. -/
def fetchaddr (K : Kernel) (pagetable : pagetable_t) (va : Nat) : Nat :=
  K.pmem (useraddr pagetable va)

/-- The loop of `sys_exec`: `for (i = 0; uargv && (arg = fetchaddr (p->pagetable,
uargv)); uargv += sizeof (char *), i++)`, whose body writes `strpool[i]` and
`argv[i]`, two arrays of `MAX_ARG_NUM` elements.  The result is the final `i`
and the strings staged so far. -/
def exec_loop (c : Consts) (env : Env) (K : Kernel) :
    Nat → Nat → Nat → List (List Nat) → Except Stop (Nat × List (List Nat))
  | 0, _, _, _ => .error .out_of_fuel
  | fuel + 1, uargv, i, argv =>
    if uargv ≠ 0 ∧ fetchaddr K K.p.pagetable uargv ≠ 0 then
      if i < c.MAX_ARG_NUM then
        exec_loop c env K fuel ((uargv + 8) % U64) (i + 1)
          (argv ++ [env.copyinstr K (fetchaddr K K.p.pagetable uargv) c.MAX_STR_LEN])
      else .error (.oob_argv i)
    else .ok (i, argv)

/-- The handler `sys_exec (path, uargv)`; after the loop it stores the
terminating `argv[i] = NULL`. -/
def sys_exec (c : Consts) (env : Env) (fuel : Nat) (K : Kernel) (path uargv : Nat) : Res Nat :=
  let name := env.copyinstr K path c.MAX_STR_LEN
  match exec_loop c env K fuel uargv 0 [] with
  | .error e => .error e
  | .ok (i, argv) =>
    if i < c.MAX_ARG_NUM then
      let r := env.exec K name argv
      .ok (toU64 r.1, r.2)
    else .error (.oob_argv i)

/-- The handler `sys_wait (pid, va)`. -/
def sys_wait (env : Env) (K : Kernel) (pid : Int) (va : Nat) : Res Nat :=
  let code := useraddr K.p.pagetable va
  let r := env.wait K pid code
  .ok (toU64 r.1, r.2)

/-- The handler `sys_spawn (va)`. -/
def sys_spawn (env : Env) (K : Kernel) (va : Nat) : Res Nat :=
  let name := env.copyinstr K va 200
  let r := env.spawn K name
  .ok (toU64 r.1, r.2)

/-- The current process with a new value of its field `pass`. -/
def set_pass (K : Kernel) (v : Int) : Kernel :=
  { K with p := { K.p with pass := v } }

/-- The handler `sys_set_priority (prio)`: the field it writes, `pass`, holds the
stride-scheduling increment `BIGSTRIDE / prio`. -/
def sys_set_priority (c : Consts) (K : Kernel) (prio : Int) : Res Nat :=
  if prio ≤ 1 then .ok (ERR, K)
  else .ok (toU64 prio, set_pass K (Int.tdiv c.BIGSTRIDE prio))

/-- The handler `sys_task_info (val)`; the record copied out is `status`, the
counters, and `time`. -/
def sys_task_info (env : Env) (K : Kernel) (val : Nat) : Res Nat :=
  let time := toU32 ((env.get_time K : Int) - K.p.start_time)
  .ok (0, env.copyout K val ([2] ++ K.p.syscall_times ++ [time]))

/-- The handler `sys_sbrk (n)`. -/
def sys_sbrk (env : Env) (K : Kernel) (n : Int) : Res Nat :=
  let addr := K.p.program_brk
  let r := env.growproc K n
  if r.1 < 0 then .ok (ERR, r.2) else .ok (addr, r.2)

/-! ## The dispatcher -/

/-- The trap frame of the current process with a new result slot `a0`. -/
def set_a0 (K : Kernel) (v : Nat) : Kernel :=
  { K with p := { K.p with trapframe := { K.p.trapframe with a0 := v } } }

/-- The assignment `ret = handler (...)` for a handler that returns `uint64`:
`ret` is an `int`. -/
def ret_of_u64 (r : Res Nat) : Res Int :=
  match r with
  | .error e => .error e
  | .ok (v, K) => .ok (toInt32 v, K)

/-- The `switch (id)` of `syscall()`: the value it leaves in `int ret` and the
state after the selected handler.  The case labels are distinct constants, so
the `switch` is the chain of comparisons in the order of the source. -/
def syscall_switch (c : Consts) (env : Env) (fuel : Nat) (K : Kernel) : Res Int :=
  let trapframe := K.p.trapframe
  let id := toInt32 trapframe.a7
  let args0 := trapframe.a0
  let args1 := trapframe.a1
  let args2 := trapframe.a2
  let args3 := trapframe.a3
  let args4 := trapframe.a4
  if id = c.SYS_write then ret_of_u64 (sys_write c env K (toInt32 args0) args1 args2)
  else if id = c.SYS_read then ret_of_u64 (sys_read c env K (toInt32 args0) args1 args2)
  else if id = c.SYS_openat then ret_of_u64 (sys_openat env K args0 args1 args2)
  else if id = c.SYS_close then ret_of_u64 (sys_close c env K (toInt32 args0))
  else if id = c.SYS_exit then ret_of_u64 (sys_exit (toInt32 args0))
  else if id = c.SYS_sched_yield then ret_of_u64 (sys_sched_yield env K)
  else if id = c.SYS_gettimeofday then
    ret_of_u64 (sys_gettimeofday c env K args0 (toInt32 args1))
  else if id = c.SYS_getpid then ret_of_u64 (sys_getpid K)
  else if id = c.SYS_getppid then ret_of_u64 (sys_getppid c K)
  else if id = c.SYS_clone then ret_of_u64 (sys_clone env K)
  else if id = c.SYS_execve then ret_of_u64 (sys_exec c env fuel K args0 args1)
  else if id = c.SYS_wait4 then ret_of_u64 (sys_wait env K (toInt32 args0) args1)
  else if id = c.SYS_fstat then sys_fstat c env K (toInt32 args0) args1
  else if id = c.SYS_linkat then
    sys_linkat env K (toInt32 args0) args1 (toInt32 args2) args3 args4
  else if id = c.SYS_unlinkat then sys_unlinkat env K (toInt32 args0) args1 args2
  else if id = c.SYS_spawn then ret_of_u64 (sys_spawn env K args0)
  else if id = c.SYS_setpriority then ret_of_u64 (sys_set_priority c K (toInt64 args0))
  else if id = c.SYS_sbrk then ret_of_u64 (sys_sbrk env K (toInt32 args0))
  else if id = c.SYS_task_info then ret_of_u64 (sys_task_info env K args0)
  else if id = c.SYS_mmap then
    ret_of_u64 (sys_mmap fuel K args0 args1 (toInt32 args2) (toInt32 args3) (toInt32 args4))
  else if id = c.SYS_munmap then ret_of_u64 (sys_munmap fuel K args0 args1)
  else .ok (-1, K)

/-- The dispatcher `syscall()`: after the `switch`, `trapframe->a0 = ret`. -/
def syscall (c : Consts) (env : Env) (fuel : Nat) (K : Kernel) : Except Stop Kernel :=
  match syscall_switch c env fuel K with
  | .error e => .error e
  | .ok (ret, K1) => .ok (set_a0 K1 (toU64 ret))

/-- The identifiers that have a case label in `syscall()`. -/
def recognized (c : Consts) : List Int :=
  [c.SYS_write, c.SYS_read, c.SYS_openat, c.SYS_close, c.SYS_exit, c.SYS_sched_yield,
   c.SYS_gettimeofday, c.SYS_getpid, c.SYS_getppid, c.SYS_clone, c.SYS_execve, c.SYS_wait4,
   c.SYS_fstat, c.SYS_linkat, c.SYS_unlinkat, c.SYS_spawn, c.SYS_setpriority, c.SYS_sbrk,
   c.SYS_task_info, c.SYS_mmap, c.SYS_munmap]

/-! ## Concrete constants and states for evaluation -/

/-- The values the constants have in the uCore teaching kernel this repository
derives from (RISC-V Linux system-call numbers); used where a theorem evaluates
the code on a concrete input. -/
def ucore : Consts :=
  { FD_BUFFER_SIZE := 16, MAX_STR_LEN := 200, MAX_ARG_NUM := 32, MAX_SYSCALL_NUM := 500,
    BIGSTRIDE := 65536, IDLE_PID := 0, CPU_FREQ := 12500000, T_DIR := 1,
    SYS_write := 64, SYS_read := 63, SYS_openat := 56, SYS_close := 57, SYS_exit := 93,
    SYS_sched_yield := 124, SYS_gettimeofday := 169, SYS_getpid := 172, SYS_getppid := 173,
    SYS_clone := 220, SYS_execve := 221, SYS_wait4 := 260, SYS_fstat := 80, SYS_linkat := 37,
    SYS_unlinkat := 35, SYS_spawn := 400, SYS_setpriority := 140, SYS_sbrk := 214,
    SYS_task_info := 410, SYS_mmap := 222, SYS_munmap := 215 }

/-- Collaborators that do nothing and report success; used where a theorem
evaluates the code on a concrete input. -/
def env0 : Env :=
  { copyinstr := fun _ _ _ => [],
    copyout := fun K _ _ => K,
    console_putchar := fun K _ => K,
    consgetc := fun K => (0, K),
    inodewrite := fun K _ _ len => (len, K),
    inoderead := fun K _ _ len => (len, K),
    yield := fun K => K,
    get_cycle := fun _ => 0,
    get_time := fun _ => 0,
    fork := fun K => (2, K),
    exec := fun K _ _ => (0, K),
    wait := fun K pid _ => (pid, K),
    spawn := fun K _ => (2, K),
    fileopen := fun K _ _ => (3, K),
    fileclose := fun K _ => K,
    growproc := fun K _ => (0, K) }

/-- A state for experiments: nothing mapped, an empty descriptor table, the
given free list. -/
def K_empty (kmem : List Nat) : Kernel :=
  { p := { pid := 1, parent := none, pass := 0, pagetable := fun _ => none,
           trapframe := ⟨0, 0, 0, 0, 0, 0, 0⟩, files := fun _ => none,
           syscall_times := [], start_time := 0, program_brk := 0, max_page := 0 },
    kmem := kmem, pmem := fun _ => 0,
    inodes := fun _ => ⟨0, 0, 0, 0⟩, disk := fun _ => ⟨0, 0, 0, 0⟩,
    root := none }

/-- The return value of a result, when there is one. -/
def Res.val {α : Type} (r : Res α) : Option α :=
  match r with
  | .ok (v, _) => some v
  | .error _ => none

/-- The final state of a result, when there is one. -/
def Res.state {α : Type} (r : Res α) : Option Kernel :=
  match r with
  | .ok (_, K) => some K
  | .error _ => none

/-- The reason for which a result has no return value, when there is one. -/
def Res.stop {α : Type} (r : Res α) : Option Stop :=
  match r with
  | .ok _ => none
  | .error e => some e

/-- The entry of virtual page `v` in the final state of a result. -/
def Res.pte {α : Type} (r : Res α) (v : Nat) : Option (Option pte_t) :=
  r.state.map fun K => K.p.pagetable v

/-- The trap frame with which the current process of `K` enters `syscall()`. -/
def with_trapframe (K : Kernel) (tf : trapframe) : Kernel :=
  { K with p := { K.p with trapframe := tf } }

/-- The result slot `a0` after `syscall()`, when it returns. -/
def a0_after (r : Except Stop Kernel) : Option Nat :=
  match r with
  | .ok K => some K.p.trapframe.a0
  | .error _ => none

/-- The field `pass` after `syscall()`, when it returns. -/
def pass_after (r : Except Stop Kernel) : Option Int :=
  match r with
  | .ok K => some K.p.pass
  | .error _ => none

/-- A trap frame that asks for `setpriority (2 ^ 31)`. -/
def K_prio : Kernel :=
  with_trapframe (K_empty []) ⟨2 ^ 31, 0, 0, 0, 0, 0, 140⟩

/-- A process whose program break is `0x80000000` and that asks for `sbrk (0)`. -/
def K_brk : Kernel :=
  with_trapframe { K_empty [] with p := { (K_empty []).p with program_brk := 0x80000000 } }
    ⟨0, 0, 0, 0, 0, 0, 214⟩

/-- A trap frame whose `a7` is `2 ^ 32 + 140`, with `a0 = 5`. -/
def K_high_id : Kernel :=
  with_trapframe (K_empty []) ⟨5, 0, 0, 0, 0, 0, 2 ^ 32 + 140⟩

/-- A trap frame whose `a7` is 999, with `a0 = 5`. -/
def K_unknown_id : Kernel :=
  with_trapframe (K_empty []) ⟨5, 0, 0, 0, 0, 0, 999⟩

/-- A process with one user page at virtual address `0x1000`, backed by the
physical page `0x80000000`, that holds a pointer array: `n` non-null pointers
followed by null words. -/
def K_argv (n : Nat) : Kernel :=
  { K_empty [] with
    p := { (K_empty []).p with
           pagetable := fun v => if v = 1 then some ⟨0x80000000, 23⟩ else none },
    pmem := fun a => if 0x80000000 ≤ a ∧ a < 0x80000000 + 8 * n then 0x2000 else 0 }

/-- A root directory with the single entry `"a"` (byte 97) for inode 7, whose
link count is 1. -/
def K_root : Kernel :=
  { K_empty [] with
    inodes := fun i => if i = 7 then ⟨0, 0, 1, 0⟩ else ⟨0, 0, 0, 0⟩,
    root := some (fun name => if name = [97] then some 7 else none) }

/-- Collaborators as `env0`, except that the string copied in from user address
`va` is the one byte `va`. -/
def env_names : Env :=
  { env0 with copyinstr := fun _ va _ => [va] }

/-- A process whose page 2 is mapped (readable, writable, user) on the physical
page `0x80002000`, with `max_page = 3` and four free physical pages. -/
def K_page2 : Kernel :=
  { K_empty [0x80005000, 0x80006000, 0x80007000, 0x80008000] with
    p := { (K_empty []).p with
           pagetable := fun v => if v = 2 then some ⟨0x80002000, 23⟩ else none,
           max_page := 3 } }

/-- A process with nothing mapped and two free physical pages. -/
def K_two : Kernel := K_empty [0x80005000, 0x80006000]

/-- The state in which `sys_mmap (0x1000, 0x2000, 3, 0, 0)` leaves `K_two`. -/
def K_mapped : Kernel :=
  match sys_mmap 8 K_two 0x1000 0x2000 3 0 0 with
  | .ok (_, K) => K
  | .error _ => K_two

/-- A process whose pages 0 to 3 are mapped, with `max_page = 4` and a single
free physical page. -/
def K_low_mem : Kernel :=
  { K_empty [0x80005000] with
    p := { (K_empty []).p with
           pagetable := fun v => if v < 4 then some ⟨0x80001000 + v * 4096, 23⟩ else none,
           max_page := 4 } }

/-- The invariant of claim C9: the high-water mark is at least the index of
every mapped user page. -/
def max_page_inv (K : Kernel) : Prop :=
  ∀ v, useraddr K.p.pagetable (v * PAGE_SIZE) ≠ 0 → v ≤ K.p.max_page

/-- The invariant by which `sys_mmap` and `sys_munmap` keep `max_page`: the
high-water mark is the index just past the mapped pages, it is greater than the
index of every mapped user page. -/
def max_page_bound (K : Kernel) : Prop :=
  ∀ v, useraddr K.p.pagetable (v * PAGE_SIZE) ≠ 0 → v < K.p.max_page

/-- A process whose pages 3, 4 and 5 are mapped, with `max_page = 5`. -/
def K_top : Kernel :=
  { K_empty [] with
    p := { (K_empty []).p with
           pagetable := fun v =>
             if 3 ≤ v ∧ v ≤ 5 then some ⟨0x80001000 + v * 4096, 23⟩ else none,
           max_page := 5 } }

/-- A trap frame that asks for `setpriority (2 ^ 63 - 1)`. -/
def K_prio_max : Kernel :=
  with_trapframe (K_empty []) ⟨2 ^ 63 - 1, 0, 0, 0, 0, 0, 140⟩

/-! ## Theorems -/

/-- C5: for a signed 64-bit `prio`, `sys_set_priority` returns the failure
sentinel and leaves the state as it is when `prio <= 1`; when `prio > 1` it
returns `prio`, the increment field `pass` becomes `BIGSTRIDE / prio` and
nothing else changes. -/
theorem sys_set_priority_spec (c : Consts) (K : Kernel) (prio : Int)
    (hlo : -2 ^ 63 ≤ prio) (hhi : prio < 2 ^ 63) :
    (prio ≤ 1 → sys_set_priority c K prio = .ok (ERR, K)) ∧
    (1 < prio →
      sys_set_priority c K prio =
        .ok (prio.toNat, { K with p := { K.p with pass := (c.BIGSTRIDE : Int) / prio } })) := by
  constructor
  · intro h
    simp [sys_set_priority, h]
  · intro h
    have h1 : ¬ prio ≤ 1 := by omega
    have h2 : toU64 prio = prio.toNat := by
      unfold toU64
      rw [Int.emod_eq_of_lt (by omega) (by omega)]
    have h3 : Int.tdiv (c.BIGSTRIDE : Int) prio = (c.BIGSTRIDE : Int) / prio :=
      Int.tdiv_eq_ediv (by omega) (by omega)
    simp [sys_set_priority, h1, h2, h3, set_pass]

/-- Witness of C5: priority 4 is accepted with increment `65536 / 4`, priority 1
is refused. -/
theorem sys_set_priority_spec_witness :
    sys_set_priority ucore (K_empty []) 4 =
        .ok (4, { K_empty [] with p := { (K_empty []).p with pass := 16384 } }) ∧
      sys_set_priority ucore (K_empty []) 1 = .ok (ERR, K_empty []) :=
  ⟨(sys_set_priority_spec ucore (K_empty []) 4 (by decide) (by decide)).2 (by decide),
   (sys_set_priority_spec ucore (K_empty []) 1 (by decide) (by decide)).1 (by decide)⟩

/-- C1 (evaluation at the failing descriptor): with `fd` equal to the capacity
`FD_BUFFER_SIZE`, each of `sys_read`, `sys_write`, `sys_close` and `sys_fstat`
passes its range check `fd > FD_BUFFER_SIZE` and reads `p->files[FD_BUFFER_SIZE]`,
a slot outside the table, instead of returning the failure sentinel. -/
theorem fd_guard_admits_capacity (c : Consts) (env : Env) (K : Kernel) (va len : Nat) :
    sys_read c env K c.FD_BUFFER_SIZE va len = .error (.oob_files c.FD_BUFFER_SIZE) ∧
    sys_write c env K c.FD_BUFFER_SIZE va len = .error (.oob_files c.FD_BUFFER_SIZE) ∧
    sys_close c env K c.FD_BUFFER_SIZE = .error (.oob_files c.FD_BUFFER_SIZE) ∧
    sys_fstat c env K c.FD_BUFFER_SIZE va = .error (.oob_files c.FD_BUFFER_SIZE) := by
  simp [sys_read, sys_write, sys_close, sys_fstat, files_get]

/-- For every other descriptor the claim of C1 names (negative, above the
capacity, or inside the table with a null slot) the four handlers return the
failure sentinel and leave the state as it is. -/
theorem fd_guard_rejects (c : Consts) (env : Env) (K : Kernel) (fd : Int) (va len : Nat)
    (h : fd < 0 ∨ (c.FD_BUFFER_SIZE : Int) < fd ∨
      (0 ≤ fd ∧ fd < c.FD_BUFFER_SIZE ∧ K.p.files fd.toNat = none)) :
    sys_read c env K fd va len = .ok (ERR, K) ∧
    sys_write c env K fd va len = .ok (ERR, K) ∧
    sys_close c env K fd = .ok (ERR, K) ∧
    sys_fstat c env K fd va = .ok (-1, K) := by
  rcases h with h | h | ⟨h0, h1, h2⟩
  · simp [sys_read, sys_write, sys_close, sys_fstat, h]
  · simp [sys_read, sys_write, sys_close, sys_fstat, h]
  · have hn : ¬ (fd < 0 ∨ fd > c.FD_BUFFER_SIZE) := by omega
    simp [sys_read, sys_write, sys_close, sys_fstat, files_get, hn, h0, h1, h2]

/-- C7 (evaluation at failing inputs): `sys_set_priority (2 ^ 31)` returns
`2 ^ 31`, `sys_set_priority (2 ^ 63 - 1)` returns `2 ^ 63 - 1` and `sys_sbrk` returns
the break `0x80000000`, but `syscall()` stores the value in `int ret`: the result
slot `a0` receives `0xFFFFFFFF80000000`, `2 ^ 64 - 1` (the failure sentinel) and
`0xFFFFFFFF80000000`. -/
theorem syscall_truncates_result :
    (sys_set_priority ucore K_prio (toInt64 K_prio.p.trapframe.a0)).val = some (2 ^ 31) ∧
    a0_after (syscall ucore env0 0 K_prio) = some 0xFFFFFFFF80000000 ∧
    (sys_set_priority ucore K_prio_max (toInt64 K_prio_max.p.trapframe.a0)).val =
      some (2 ^ 63 - 1) ∧
    a0_after (syscall ucore env0 0 K_prio_max) = some (2 ^ 64 - 1) ∧
    (sys_sbrk env0 K_brk (toInt32 K_brk.p.trapframe.a0)).val = some 0x80000000 ∧
    a0_after (syscall ucore env0 0 K_brk) = some 0xFFFFFFFF80000000 := by
  decide

/-- C8 (counterexample): `a7 = 2 ^ 32 + 140` is none of the recognized
identifiers, yet `syscall()` reads it into `int id`, runs `sys_set_priority`,
changes the field `pass` and stores 5, not the failure sentinel, in `a0`. -/
theorem syscall_high_id_counterexample :
    (K_high_id.p.trapframe.a7 : Int) ∉ recognized ucore ∧
    a0_after (syscall ucore env0 0 K_high_id) = some 5 ∧
    K_high_id.p.pass = 0 ∧
    pass_after (syscall ucore env0 0 K_high_id) = some 13107 := by
  decide

/-- C8 (amended): when the identifier that `syscall()` reads, the low 32 bits of
`a7` taken as an `int`, is none of the recognized identifiers, the `switch`
takes its default branch (no handler runs, `ret = -1`), and the state after
`syscall()` is the state before it with the failure sentinel in `a0`. -/
theorem syscall_unrecognized (c : Consts) (env : Env) (fuel : Nat) (K : Kernel)
    (h : toInt32 K.p.trapframe.a7 ∉ recognized c) :
    syscall_switch c env fuel K = .ok (-1, K) ∧
    syscall c env fuel K = .ok (set_a0 K ERR) := by
  simp only [recognized, List.mem_cons, List.mem_singleton, not_or, List.not_mem_nil,
    not_false_eq_true, and_true] at h
  obtain ⟨h1, h2, h3, h4, h5, h6, h7, h8, h9, h10, h11, h12, h13, h14, h15, h16, h17, h18,
    h19, h20, h21⟩ := h
  have hs : syscall_switch c env fuel K = .ok (-1, K) := by
    simp [syscall_switch, h1, h2, h3, h4, h5, h6, h7, h8, h9, h10, h11, h12, h13, h14, h15,
      h16, h17, h18, h19, h20, h21]
  refine ⟨hs, ?_⟩
  simp only [syscall, hs]
  rfl

/-- Witness of C8 (amended): identifier 999. -/
theorem syscall_unrecognized_witness :
    toInt32 K_unknown_id.p.trapframe.a7 ∉ recognized ucore ∧
    syscall ucore env0 0 K_unknown_id = .ok (set_a0 K_unknown_id ERR) :=
  ⟨by decide, (syscall_unrecognized ucore env0 0 K_unknown_id (by decide)).2⟩

/-- C10 (evaluation at a failing input): with `MAX_ARG_NUM = 32`, a user `argv`
of 32 non-null pointers makes `sys_exec` store the terminating `NULL` at index
32, and a user `argv` of 40 non-null pointers makes the loop write `strpool[32]`:
both indices are outside the staging arrays. -/
theorem sys_exec_overruns_argv :
    (sys_exec ucore env0 64 (K_argv 32) 0 0x1000).stop = some (.oob_argv 32) ∧
    (sys_exec ucore env0 64 (K_argv 40) 0 0x1000).stop = some (.oob_argv 32) ∧
    (sys_exec ucore env0 64 (K_argv 31) 0 0x1000).val = some 0 := by
  decide

/-- C6: with a root directory `dp` and the names `old`, `new` copied in from the
two paths: when `old` is not an entry, `sys_linkat` returns -1 and leaves the
state (root directory and inodes) as it is; when `old` is an entry for inode
`inum`, it returns 0, the link count of `inum` is its former value plus one, the
other link counts are unchanged, and afterwards the root directory resolves
both `new` and `old` to `inum`. -/
theorem sys_linkat_spec (env : Env) (K : Kernel) (olddirfd newdirfd : Int)
    (oldpath newpath flags : Nat) (dp : List Nat → Option Nat) (hroot : K.root = some dp) :
    (dp (env.copyinstr K oldpath 200) = none →
      sys_linkat env K olddirfd oldpath newdirfd newpath flags = .ok (-1, K)) ∧
    (∀ inum, dp (env.copyinstr K oldpath 200) = some inum →
      ∃ K1 dp1, sys_linkat env K olddirfd oldpath newdirfd newpath flags = .ok (0, K1) ∧
        (K1.inodes inum).nlink = (K.inodes inum).nlink + 1 ∧
        (∀ j, j ≠ inum → (K1.inodes j).nlink = (K.inodes j).nlink) ∧
        K1.root = some dp1 ∧
        (dirlookup K1 dp1 (env.copyinstr K newpath 200)).1 = some inum ∧
        (dirlookup K1 dp1 (env.copyinstr K oldpath 200)).1 = some inum) := by
  constructor
  · intro h
    simp [sys_linkat, hroot, dirlookup, h]
  · intro inum h
    have hget : dirlookup K dp (env.copyinstr K oldpath 200) = (some inum, iget K inum) := by
      simp only [dirlookup, h]
    refine ⟨iput (dirlink (iupdate (set_nlink (ivalid (iget K inum) inum) inum
        (((ivalid (iget K inum) inum).inodes inum).nlink + 1)) inum) dp
        (env.copyinstr K newpath 200) inum) inum,
      Function.update dp (env.copyinstr K newpath 200) (some inum), ?_, ?_, ?_, ?_, ?_, ?_⟩
    · simp only [sys_linkat, hroot, hget]
    · simp [iput, dirlink, iupdate, set_nlink, ivalid, iget]
    · intro j hj
      simp [iput, dirlink, iupdate, set_nlink, ivalid, iget, Function.update_noteq hj]
    · simp [iput, dirlink]
    · simp [dirlookup]
    · by_cases hn : env.copyinstr K oldpath 200 = env.copyinstr K newpath 200
      · rw [hn]
        simp [dirlookup]
      · simp [dirlookup, Function.update_noteq hn, h]

/-- Witness of C6: linking the existing name `"a"` (inode 7) under the name
`"b"`, and linking the missing name `"c"`. -/
theorem sys_linkat_spec_witness :
    (∃ K1 dp1, sys_linkat env_names K_root 0 97 0 98 0 = .ok (0, K1) ∧
        (K1.inodes 7).nlink = (K_root.inodes 7).nlink + 1 ∧
        (∀ j, j ≠ 7 → (K1.inodes j).nlink = (K_root.inodes j).nlink) ∧
        K1.root = some dp1 ∧
        (dirlookup K1 dp1 [98]).1 = some 7 ∧ (dirlookup K1 dp1 [97]).1 = some 7) ∧
      sys_linkat env_names K_root 0 99 0 98 0 = .ok (-1, K_root) :=
  ⟨(sys_linkat_spec env_names K_root 0 0 97 98 0 _ rfl).2 7 (by decide),
   (sys_linkat_spec env_names K_root 0 0 99 98 0 _ rfl).1 (by decide)⟩

/-! ### Address-space mapper: auxiliary facts -/

/-- A page translates (`useraddr` is not 0) exactly when its entry is valid,
user-accessible and points to a non-null physical page. -/
theorem useraddr_ne_zero_iff (pt : pagetable_t) (va : Nat) :
    useraddr pt va ≠ 0 ↔
      ∃ e, pt (va / PAGE_SIZE) = some e ∧ e.flags &&& PTE_V ≠ 0 ∧ e.flags &&& PTE_U ≠ 0 ∧
        e.pa ≠ 0 := by
  unfold useraddr walk
  cases h : pt (va / PAGE_SIZE) with
  | none => simp
  | some e =>
    by_cases h1 : e.flags &&& PTE_V = 0
    · simp [h1]
    · by_cases h2 : e.flags &&& PTE_U = 0
      · simp [h1, h2]
      · by_cases h3 : e.pa = 0
        · simp [h1, h2, h3]
        · simp only [h1, h2, h3, if_false, Option.some.injEq, exists_eq_left', ne_eq,
            not_false_eq_true, and_self, iff_true]
          omega

/-- Whether an address translates depends on the entry of its page only. -/
theorem useraddr_congr (pt1 pt2 : pagetable_t) (va1 va2 : Nat)
    (h : pt1 (va1 / PAGE_SIZE) = pt2 (va2 / PAGE_SIZE)) :
    useraddr pt1 va1 ≠ 0 ↔ useraddr pt2 va2 ≠ 0 := by
  rw [useraddr_ne_zero_iff, useraddr_ne_zero_iff, h]

/-- A successful installation changes the entry of the page of `va` and nothing
else. -/
theorem mappages_some (pt pt1 : pagetable_t) (va pa perm : Nat)
    (h : mappages pt va pa perm = some pt1) :
    pt1 = Function.update pt (va / PAGE_SIZE) (some ⟨pa, perm ||| PTE_V⟩) := by
  unfold mappages at h
  cases hw : walk pt va with
  | none =>
    rw [hw] at h
    simpa using h.symm
  | some e =>
    rw [hw] at h
    by_cases hv : e.flags &&& PTE_V ≠ 0
    · simp [hv] at h
    · simp only [hv, if_false, Option.some.injEq] at h
      exact h.symm

/-- The page number of the first address of page `v` is `v`. -/
theorem mul_div_page (v : Nat) : v * PAGE_SIZE / PAGE_SIZE = v :=
  Nat.mul_div_cancel v (by decide)

/-- Allocation leaves the current process as it is. -/
theorem kalloc_p (K : Kernel) : (kalloc K).2.p = K.p := by
  unfold kalloc
  cases K.kmem <;> rfl

/-- The loop of `sys_mmap` stops with `return -1` when a page of the range is
mapped already, at the latest when it reaches that page; the high-water mark
and the entries of the pages that were mapped are as before. -/
theorem mmap_loop_conflict (perm va_end : Nat) (hend : va_end < U64) :
    ∀ (n fuel : Nat) (K : Kernel) (va : Nat), va % PAGE_SIZE = 0 →
      va + n * PAGE_SIZE < va_end → useraddr K.p.pagetable (va + n * PAGE_SIZE) ≠ 0 →
      n < fuel →
      ∃ K1, mmap_loop perm va_end fuel K va = .ok (false, K1) ∧
        K1.p.max_page = K.p.max_page ∧
        (∀ v, useraddr K.p.pagetable (v * PAGE_SIZE) ≠ 0 →
          K1.p.pagetable v = K.p.pagetable v) ∧
        ∀ v, v < va / PAGE_SIZE ∨ va / PAGE_SIZE + n ≤ v →
          K1.p.pagetable v = K.p.pagetable v := by
  intro n
  induction n with
  | zero =>
    intro fuel K va _ hlt hm hf
    obtain ⟨f, rfl⟩ : ∃ f, fuel = f + 1 := ⟨fuel - 1, by omega⟩
    simp only [Nat.zero_mul, Nat.add_zero] at hlt hm
    refine ⟨K, ?_, rfl, fun _ _ => rfl, fun _ _ => rfl⟩
    rw [mmap_loop]
    simp [hlt, hm]
  | succ n ih =>
    intro fuel K va hal hlt hm hf
    obtain ⟨f, rfl⟩ : ∃ f, fuel = f + 1 := ⟨fuel - 1, by omega⟩
    have hva : va < va_end := by
      simp only [PAGE_SIZE] at hlt
      omega
    rw [mmap_loop]
    simp only [hva, if_true]
    by_cases hu : useraddr K.p.pagetable va ≠ 0
    · exact ⟨K, by simp [hu], rfl, fun _ _ => rfl, fun _ _ => rfl⟩
    · simp only [hu, if_false]
      by_cases hpa : (kalloc K).1 = 0
      · exact ⟨(kalloc K).2, by simp [hpa], by rw [kalloc_p], fun _ _ => by rw [kalloc_p],
          fun _ _ => by rw [kalloc_p]⟩
      · simp only [hpa, if_false]
        cases hmp : mappages (kalloc K).2.p.pagetable va (kalloc K).1 perm with
        | none =>
          exact ⟨(kalloc K).2, rfl, by rw [kalloc_p], fun _ _ => by rw [kalloc_p],
            fun _ _ => by rw [kalloc_p]⟩
        | some pt =>
          have hpt := mappages_some _ _ _ _ _ hmp
          rw [kalloc_p] at hpt
          have hstep : (va + PAGE_SIZE) % U64 = va + PAGE_SIZE := by
            apply Nat.mod_eq_of_lt
            simp only [PAGE_SIZE, U64] at *
            omega
          simp only [hstep]
          have hne : (va + PAGE_SIZE + n * PAGE_SIZE) / PAGE_SIZE ≠ va / PAGE_SIZE := by
            simp only [PAGE_SIZE] at *
            omega
          have hm2 : useraddr (set_pagetable (kalloc K).2 pt).p.pagetable
              (va + PAGE_SIZE + n * PAGE_SIZE) ≠ 0 := by
            have : va + PAGE_SIZE + n * PAGE_SIZE = va + (n + 1) * PAGE_SIZE := by ring
            rw [this] at hne ⊢
            refine (useraddr_congr _ K.p.pagetable _ _ ?_).mpr hm
            simp only [set_pagetable, hpt]
            exact Function.update_noteq hne _ _
          obtain ⟨K1, h1, h2, h3, h4⟩ := ih f (set_pagetable (kalloc K).2 pt) (va + PAGE_SIZE)
            (by simp only [PAGE_SIZE] at *; omega)
            (by simp only [PAGE_SIZE] at *; omega) hm2 (by omega)
          have hupd : ∀ v, v ≠ va / PAGE_SIZE →
              (set_pagetable (kalloc K).2 pt).p.pagetable v = K.p.pagetable v := by
            intro v hv
            simp only [set_pagetable, hpt]
            exact Function.update_noteq hv _ _
          refine ⟨K1, h1, ?_, ?_, ?_⟩
          rotate_left 2
          · intro v hv
            have hsucc : (va + PAGE_SIZE) / PAGE_SIZE = va / PAGE_SIZE + 1 := by
              simp only [PAGE_SIZE]
              omega
            rw [h4 v (by rw [hsucc]; omega), hupd v (by omega)]
          · rw [h2]
            simp only [set_pagetable]
            rw [kalloc_p]
          · intro v hv
            have hvne : v ≠ va / PAGE_SIZE := by
              intro heq
              apply hu
              refine (useraddr_congr _ _ _ _ ?_).mp hv
              rw [mul_div_page, heq]
            have hsame := hupd v hvne
            have hv2 : useraddr (set_pagetable (kalloc K).2 pt).p.pagetable (v * PAGE_SIZE) ≠ 0 :=
              (useraddr_congr _ _ _ _ (by rw [mul_div_page, hsame])).mpr hv
            rw [h3 v hv2, hsame]

/-- C2 (counterexample): page 2 of the process is mapped and `max_page` is 3.  The
call `sys_mmap (0x1000, 0x2000, 3, 0, 0)` has the mapped page 2 in its range and
returns -1, but it has mapped page 1 before it reached page 2: the page table
after the call differs from the one before it.  And the call `sys_mmap (0x1000,
2 ^ 64 - 0x1000, 3, 0, 0)`, whose range holds page 2 as well, computes `end = 0`
and returns 0. -/
theorem sys_mmap_conflict_counterexample :
    useraddr K_page2.p.pagetable 0x2000 ≠ 0 ∧
    (sys_mmap 8 K_page2 0x1000 0x2000 3 0 0).val = some ERR ∧
    K_page2.p.pagetable 1 = none ∧
    (sys_mmap 8 K_page2 0x1000 0x2000 3 0 0).pte 1 = some (some ⟨0x80005000, 23⟩) ∧
    (sys_mmap 8 K_page2 0x1000 (2 ^ 64 - 0x1000) 3 0 0).val = some 0 := by
  decide

/-- C2 (amended): for `len > 0` with `start + len` below `2 ^ 64`, when the page
of an address `va` of `[start, start + len)` is mapped already, `sys_mmap`
returns -1 (with fuel for the pages up to that of `va`), `max_page` is as
before, every page that was mapped keeps its entry, and so does every page
below `start` or from the page of `va` on. -/
theorem sys_mmap_conflict (fuel : Nat) (K : Kernel) (start len : Nat) (prot flag fd : Int)
    (va : Nat) (hlen : 0 < len) (hov : start + len < U64) (h1 : start ≤ va)
    (h2 : va < start + len) (hm : useraddr K.p.pagetable va ≠ 0)
    (hf : (va - start) / PAGE_SIZE < fuel) :
    ∃ K1, sys_mmap fuel K start len prot flag fd = .ok (ERR, K1) ∧
      K1.p.max_page = K.p.max_page ∧
      (∀ v, useraddr K.p.pagetable (v * PAGE_SIZE) ≠ 0 →
        K1.p.pagetable v = K.p.pagetable v) ∧
      ∀ v, v < start / PAGE_SIZE ∨ va / PAGE_SIZE ≤ v →
        K1.p.pagetable v = K.p.pagetable v := by
  unfold sys_mmap
  have hl : len ≠ 0 := by omega
  simp only [hl, if_false]
  by_cases hal : PGALIGNED start = true
  swap
  · exact ⟨K, by simp [hal], rfl, fun _ _ => rfl, fun _ _ => rfl⟩
  by_cases hp1 : int_and prot (int_not 7) ≠ 0
  · exact ⟨K, by simp [hal, hp1], rfl, fun _ _ => rfl, fun _ _ => rfl⟩
  by_cases hp2 : int_and prot 7 = 0
  · exact ⟨K, by simp [hal, hp1, hp2], rfl, fun _ _ => rfl, fun _ _ => rfl⟩
  have hal2 : start % PAGE_SIZE = 0 := by simpa [PGALIGNED] using hal
  have hend : (start + len) % U64 = start + len := Nat.mod_eq_of_lt hov
  have hpg : (start + (va - start) / PAGE_SIZE * PAGE_SIZE) / PAGE_SIZE = va / PAGE_SIZE := by
    simp only [PAGE_SIZE] at *
    omega
  obtain ⟨K1, e1, e2, e3, e4⟩ := mmap_loop_conflict
    (int_or (int_shl prot 1) PTE_U).toNat (start + len) hov ((va - start) / PAGE_SIZE) fuel K
    start hal2 (by simp only [PAGE_SIZE] at *; omega)
    ((useraddr_congr _ _ _ _ (by rw [hpg])).mpr hm) hf
  refine ⟨K1, ?_, e2, e3, ?_⟩
  · simp only [hal, hp1, hp2, hend, e1, not_true_eq_false, if_false]
  · intro v hv
    apply e4
    have : start / PAGE_SIZE + (va - start) / PAGE_SIZE = va / PAGE_SIZE := by
      simp only [PAGE_SIZE] at *
      omega
    omega

/-- Witness of C2 (amended): the call of the counterexample returns -1, leaves
`max_page = 3` and leaves the entry of the mapped page 2 as it was. -/
theorem sys_mmap_conflict_witness :
    ∃ K1, sys_mmap 8 K_page2 0x1000 0x2000 3 0 0 = .ok (ERR, K1) ∧
      K1.p.max_page = K_page2.p.max_page ∧
      (∀ v, useraddr K_page2.p.pagetable (v * PAGE_SIZE) ≠ 0 →
        K1.p.pagetable v = K_page2.p.pagetable v) ∧
      ∀ v, v < 0x1000 / PAGE_SIZE ∨ 0x2000 / PAGE_SIZE ≤ v →
        K1.p.pagetable v = K_page2.p.pagetable v :=
  sys_mmap_conflict 8 K_page2 0x1000 0x2000 3 0 0 0x2000 (by decide) (by decide) (by decide)
    (by decide) (by decide) (by decide)

/-! ### The `prot` guards of `sys_mmap` -/

/-- A 32-bit pattern of value 8 or more has a bit in common with `~7`. -/
theorem and_high_mask_ne_zero (u : Nat) (h8 : 8 ≤ u) (h32 : u < 2 ^ 32) :
    u &&& 0xFFFFFFF8 ≠ 0 := by
  obtain ⟨i, hi, hbit⟩ := Nat.ge_two_pow_implies_high_bit_true (x := u) (n := 3) h8
  have hi32 : i < 32 := by
    by_contra hge
    have hlt : u < 2 ^ i := lt_of_lt_of_le h32 (Nat.pow_le_pow_right (by decide) (by omega))
    rw [Nat.testBit_lt_two_pow hlt] at hbit
    exact Bool.false_ne_true hbit
  intro h0
  have hb : (u &&& 0xFFFFFFF8).testBit i = true := by
    rw [Nat.testBit_and, hbit]
    interval_cases i <;> decide
  rw [h0, Nat.zero_testBit] at hb
  exact Bool.false_ne_true hb

/-- A non-zero 32-bit pattern is a non-zero `int`. -/
theorem toInt32_ne_zero (x : Nat) (h0 : x ≠ 0) (h32 : x < 2 ^ 32) : toInt32 x ≠ 0 := by
  unfold toInt32
  rw [Nat.mod_eq_of_lt h32]
  split_ifs <;> omega

/-- The two `prot` tests of `sys_mmap` let exactly the values 1 to 7 through. -/
theorem prot_guards (prot : Int) (hlo : -2 ^ 31 ≤ prot) (hhi : prot < 2 ^ 31) :
    (int_and prot (int_not 7) ≠ 0 ∨ int_and prot 7 = 0) ↔ ¬ (1 ≤ prot ∧ prot ≤ 7) := by
  constructor
  · rintro h ⟨h1, h7⟩
    interval_cases prot <;> revert h <;> decide
  · intro h
    by_cases h0 : prot = 0
    · subst h0
      right
      decide
    left
    have hmask : toU32 (int_not 7) = 0xFFFFFFF8 := by decide
    unfold int_and
    rw [hmask]
    have hu : 8 ≤ toU32 prot ∧ toU32 prot < 2 ^ 32 := by
      unfold toU32
      omega
    exact toInt32_ne_zero _ (and_high_mask_ne_zero _ hu.1 hu.2)
      (lt_of_le_of_lt Nat.and_le_left hu.2)

/-! ### The loops of `sys_mmap` and `sys_munmap` on a range that does not wrap -/

/-- Below an end that does not lie in the last page, `va += PAGE_SIZE` does not
wrap. -/
theorem page_step (va va_end : Nat) (hend : va_end ≤ U64 - PAGE_SIZE) (hva : va < va_end) :
    (va + PAGE_SIZE) % U64 = va + PAGE_SIZE := by
  apply Nat.mod_eq_of_lt
  simp only [PAGE_SIZE, U64] at *
  omega

/-- When the end of the range lies in the last page of the `uint64` space, every
page-aligned address is below it: the loop of `sys_mmap` never reaches its
normal end. -/
theorem mmap_loop_wrap (perm va_end : Nat) (hend : U64 - PAGE_SIZE < va_end) :
    ∀ (fuel : Nat) (K : Kernel) (va : Nat) (K1 : Kernel), va % PAGE_SIZE = 0 → va < U64 →
      mmap_loop perm va_end fuel K va ≠ .ok (true, K1) := by
  intro fuel
  induction fuel with
  | zero =>
    intro K va K1 _ _ h
    simp [mmap_loop] at h
  | succ f ih =>
    intro K va K1 hal hlt h
    have hva : va < va_end := by
      simp only [PAGE_SIZE, U64] at *
      omega
    rw [mmap_loop] at h
    simp only [hva, if_true] at h
    by_cases hu : useraddr K.p.pagetable va ≠ 0
    · simp [hu] at h
    · simp only [hu, if_false] at h
      by_cases hpa : (kalloc K).1 = 0
      · simp [hpa] at h
      · simp only [hpa, if_false] at h
        cases hmp : mappages (kalloc K).2.p.pagetable va (kalloc K).1 perm with
        | none => simp [hmp] at h
        | some pt =>
          simp only [hmp] at h
          refine ih _ _ K1 ?_ ?_ h
          · simp only [PAGE_SIZE, U64] at *
            omega
          · exact Nat.mod_lt _ (by decide)

/-- What a normal end of the loop of `sys_mmap` leaves, on a range that does not
wrap: the high-water mark as before, every page of `[va, va_end)` with an entry
that carries `perm | PTE_V` and a non-null physical page, every other page as
before; and the fuel was more than the number of pages. -/
theorem mmap_loop_true (perm va_end : Nat) (hend : va_end ≤ U64 - PAGE_SIZE) :
    ∀ (fuel : Nat) (K : Kernel) (va : Nat) (K1 : Kernel), va % PAGE_SIZE = 0 →
      mmap_loop perm va_end fuel K va = .ok (true, K1) →
      K1.p.max_page = K.p.max_page ∧
      (∀ v, va / PAGE_SIZE ≤ v → v * PAGE_SIZE < va_end →
        ∃ pa, pa ≠ 0 ∧ K1.p.pagetable v = some ⟨pa, perm ||| PTE_V⟩) ∧
      (∀ v, v < va / PAGE_SIZE ∨ va_end ≤ v * PAGE_SIZE →
        K1.p.pagetable v = K.p.pagetable v) ∧
      (va_end - va + (PAGE_SIZE - 1)) / PAGE_SIZE < fuel := by
  intro fuel
  induction fuel with
  | zero =>
    intro K va K1 _ h
    simp [mmap_loop] at h
  | succ f ih =>
    intro K va K1 hal h
    rw [mmap_loop] at h
    by_cases hva : va < va_end
    swap
    · simp only [hva, if_false, Except.ok.injEq, Prod.mk.injEq, true_and] at h
      subst h
      refine ⟨rfl, ?_, fun _ _ => rfl, ?_⟩
      · intro v h1 h2
        exfalso
        simp only [PAGE_SIZE] at *
        omega
      · simp only [PAGE_SIZE] at *
        omega
    simp only [hva, if_true] at h
    by_cases hu : useraddr K.p.pagetable va ≠ 0
    · simp [hu] at h
    simp only [hu, if_false] at h
    by_cases hpa : (kalloc K).1 = 0
    · simp [hpa] at h
    simp only [hpa, if_false] at h
    cases hmp : mappages (kalloc K).2.p.pagetable va (kalloc K).1 perm with
    | none => simp [hmp] at h
    | some pt =>
      simp only [hmp, page_step va va_end hend hva] at h
      have hpt := mappages_some _ _ _ _ _ hmp
      rw [kalloc_p] at hpt
      have hsucc : (va + PAGE_SIZE) / PAGE_SIZE = va / PAGE_SIZE + 1 := by
        simp only [PAGE_SIZE]
        omega
      obtain ⟨h1, h2, h3, h4⟩ := ih (set_pagetable (kalloc K).2 pt) (va + PAGE_SIZE) K1
        (by simp only [PAGE_SIZE] at *; omega) h
      rw [hsucc] at h2 h3
      have hupd : ∀ v, v ≠ va / PAGE_SIZE →
          (set_pagetable (kalloc K).2 pt).p.pagetable v = K.p.pagetable v := by
        intro v hv
        simp only [set_pagetable, hpt]
        exact Function.update_noteq hv _ _
      refine ⟨?_, ?_, ?_, ?_⟩
      · rw [h1]
        simp only [set_pagetable]
        rw [kalloc_p]
      · intro v hv1 hv2
        by_cases hv : v = va / PAGE_SIZE
        · refine ⟨(kalloc K).1, hpa, ?_⟩
          rw [h3 v (by omega)]
          simp only [set_pagetable, hpt, hv, Function.update_same]
        · exact h2 v (by omega) hv2
      · intro v hv
        have hne : v ≠ va / PAGE_SIZE := by
          simp only [PAGE_SIZE] at *
          omega
        rw [h3 v (by omega), hupd v hne]
      · simp only [PAGE_SIZE] at *
        omega

/-- Installation succeeds on a page whose entry is not valid. -/
theorem mappages_ok (pt : pagetable_t) (va pa perm : Nat)
    (h : ∀ e, pt (va / PAGE_SIZE) = some e → e.flags &&& PTE_V = 0) :
    mappages pt va pa perm =
      some (Function.update pt (va / PAGE_SIZE) (some ⟨pa, perm ||| PTE_V⟩)) := by
  unfold mappages walk
  cases hw : pt (va / PAGE_SIZE) with
  | none => rfl
  | some e => simp [h e hw]

/-- Allocation from a non-empty free list gives its head. -/
theorem kalloc_cons (K : Kernel) (pa : Nat) (rest : List Nat) (h : K.kmem = pa :: rest) :
    kalloc K = (pa, { K with kmem := rest }) := by
  unfold kalloc
  rw [h]

/-- The loop of `sys_mmap` reaches its normal end on a range that does not wrap,
when no page of the range has a valid entry, the free list holds a non-null
page for each of the `n` pages, and the fuel is more than `n`. -/
theorem mmap_loop_succeeds (perm va_end : Nat) (hend : va_end ≤ U64 - PAGE_SIZE) :
    ∀ (n fuel : Nat) (K : Kernel) (va : Nat), va % PAGE_SIZE = 0 →
      va_end ≤ va + n * PAGE_SIZE → n < fuel → n ≤ K.kmem.length →
      (∀ pa ∈ K.kmem, pa ≠ 0) →
      (∀ v, va / PAGE_SIZE ≤ v → v * PAGE_SIZE < va_end →
        ∀ e, K.p.pagetable v = some e → e.flags &&& PTE_V = 0) →
      ∃ K1, mmap_loop perm va_end fuel K va = .ok (true, K1) := by
  intro n
  induction n with
  | zero =>
    intro fuel K va _ hn hf _ _ _
    obtain ⟨f, rfl⟩ : ∃ f, fuel = f + 1 := ⟨fuel - 1, by omega⟩
    have hva : ¬ va < va_end := by omega
    exact ⟨K, by rw [mmap_loop]; simp [hva]⟩
  | succ n ih =>
    intro fuel K va hal hn hf hmem hnz hinst
    obtain ⟨f, rfl⟩ : ∃ f, fuel = f + 1 := ⟨fuel - 1, by omega⟩
    by_cases hva : va < va_end
    swap
    · exact ⟨K, by rw [mmap_loop]; simp [hva]⟩
    have hthis : ∀ e, K.p.pagetable (va / PAGE_SIZE) = some e → e.flags &&& PTE_V = 0 := by
      apply hinst (va / PAGE_SIZE) (le_refl _)
      simp only [PAGE_SIZE] at *
      omega
    have hu : ¬ useraddr K.p.pagetable va ≠ 0 := by
      rw [useraddr_ne_zero_iff]
      rintro ⟨e, he, hv, _⟩
      exact hv (hthis e he)
    cases hk : K.kmem with
    | nil =>
      rw [hk] at hmem
      simp at hmem
    | cons pa rest =>
      have hpa : pa ≠ 0 := hnz pa (by simp [hk])
      have hka := kalloc_cons K pa rest hk
      have hmp := mappages_ok K.p.pagetable va pa perm hthis
      rw [mmap_loop]
      simp only [hva, if_true, hu, if_false, hka, hpa, hmp, page_step va va_end hend hva]
      apply ih
      · simp only [PAGE_SIZE] at *
        omega
      · simp only [PAGE_SIZE] at *
        omega
      · omega
      · simp only [set_pagetable]
        rw [hk] at hmem
        simpa using hmem
      · intro q hq
        simp only [set_pagetable] at hq
        exact hnz q (by simp [hk, hq])
      · intro v hv1 hv2 e he
        have hne : v ≠ va / PAGE_SIZE := by
          simp only [PAGE_SIZE] at *
          omega
        simp only [set_pagetable, Function.update_noteq hne] at he
        exact hinst v (by simp only [PAGE_SIZE] at *; omega) hv2 e he

/-- The loop of `sys_munmap` reaches its normal end on a range that does not
wrap, when every page of the range has a valid, user-accessible entry and the
fuel is more than the number `n` of pages; it leaves every entry of the range
cleared and every other entry as before. -/
theorem munmap_loop_succeeds (va_end : Nat) (hend : va_end ≤ U64 - PAGE_SIZE) :
    ∀ (n fuel : Nat) (K : Kernel) (va : Nat), va % PAGE_SIZE = 0 →
      va_end ≤ va + n * PAGE_SIZE → n < fuel →
      (∀ v, va / PAGE_SIZE ≤ v → v * PAGE_SIZE < va_end →
        ∃ e, K.p.pagetable v = some e ∧ e.flags &&& PTE_V ≠ 0 ∧ e.flags &&& PTE_U ≠ 0) →
      ∃ K1, munmap_loop va_end fuel K va = .ok (true, K1) ∧
        K1.p.max_page = K.p.max_page ∧
        (∀ v, va / PAGE_SIZE ≤ v → v * PAGE_SIZE < va_end →
          K1.p.pagetable v = some ⟨0, 0⟩) ∧
        (∀ v, v < va / PAGE_SIZE ∨ va_end ≤ v * PAGE_SIZE →
          K1.p.pagetable v = K.p.pagetable v) := by
  intro n
  induction n with
  | zero =>
    intro fuel K va _ hn hf _
    obtain ⟨f, rfl⟩ : ∃ f, fuel = f + 1 := ⟨fuel - 1, by omega⟩
    have hva : ¬ va < va_end := by omega
    refine ⟨K, by rw [munmap_loop]; simp [hva], rfl, ?_, fun _ _ => rfl⟩
    intro v h1 h2
    exfalso
    simp only [PAGE_SIZE] at *
    omega
  | succ n ih =>
    intro fuel K va hal hn hf hall
    obtain ⟨f, rfl⟩ : ∃ f, fuel = f + 1 := ⟨fuel - 1, by omega⟩
    by_cases hva : va < va_end
    swap
    · refine ⟨K, by rw [munmap_loop]; simp [hva], rfl, ?_, fun _ _ => rfl⟩
      intro v h1 h2
      exfalso
      simp only [PAGE_SIZE] at *
      omega
    obtain ⟨e, he, hv, hu⟩ := hall (va / PAGE_SIZE) (le_refl _)
      (by simp only [PAGE_SIZE] at *; omega)
    have hsucc : (va + PAGE_SIZE) / PAGE_SIZE = va / PAGE_SIZE + 1 := by
      simp only [PAGE_SIZE]
      omega
    obtain ⟨K1, h1, h2, h3, h4⟩ := ih f
      (set_pagetable (kfree K e.pa)
        (Function.update (kfree K e.pa).p.pagetable (va / PAGE_SIZE) (some ⟨0, 0⟩)))
      (va + PAGE_SIZE) (by simp only [PAGE_SIZE] at *; omega)
      (by simp only [PAGE_SIZE] at *; omega) (by omega)
      (by
        intro v hv1 hv2
        have hne : v ≠ va / PAGE_SIZE := by omega
        obtain ⟨e2, he2, hr⟩ := hall v (by omega) hv2
        exact ⟨e2, by simp only [set_pagetable, kfree, Function.update_noteq hne, he2], hr⟩)
    rw [hsucc] at h3 h4
    refine ⟨K1, ?_, ?_, ?_, ?_⟩
    · rw [munmap_loop]
      simp only [hva, if_true, walk, he, hv, hu, or_self, if_false,
        page_step va va_end hend hva]
      exact h1
    · rw [h2]
      rfl
    · intro v hv1 hv2
      by_cases hvv : v = va / PAGE_SIZE
      · rw [h4 v (by omega)]
        simp only [set_pagetable, kfree, hvv, Function.update_same]
      · exact h3 v (by omega) hv2
    · intro v hv
      have hne : v ≠ va / PAGE_SIZE := by
        simp only [PAGE_SIZE] at *
        omega
      rw [h4 v (by omega)]
      simp only [set_pagetable, kfree, Function.update_noteq hne]

/-! ### `sys_mmap` and `sys_munmap` -/

/-- For `prot` in 1..7 the flags `(prot << 1) | PTE_U | PTE_V` that `sys_mmap`
installs carry the valid and the user bit. -/
theorem perm_facts (prot : Int) (h1 : 1 ≤ prot) (h7 : prot ≤ 7) :
    (int_or (int_shl prot 1) PTE_U).toNat = (prot.toNat <<< 1) ||| PTE_U ∧
    ((int_or (int_shl prot 1) PTE_U).toNat ||| PTE_V) &&& PTE_V ≠ 0 ∧
    ((int_or (int_shl prot 1) PTE_U).toNat ||| PTE_V) &&& PTE_U ≠ 0 := by
  interval_cases prot <;> decide

/-- C4 (counterexample): nothing is mapped, `start = 0x1000` is page-aligned and a
free physical page is available; `sys_mmap (0x1000, 2 ^ 64 - 0x1000, 1, 0, 0)`
computes `end = 0`, skips its loop and returns 0, and page 1, the first page of
the range, is still unmapped. -/
theorem sys_mmap_overflow_counterexample :
    (0x1000 % PAGE_SIZE = 0 ∧
      (sys_mmap 8 (K_empty [0x80005000]) 0x1000 (2 ^ 64 - 0x1000) 1 0 0).val = some 0 ∧
      (sys_mmap 8 (K_empty [0x80005000]) 0x1000 (2 ^ 64 - 0x1000) 1 0 0).pte 1 = some none ∧
      (sys_mmap 8 (K_empty [0x80005000]) 0x1000 (2 ^ 64 - 0x1000) 1 0 0).state.map
        (fun K1 => useraddr K1.p.pagetable 0x1000) = some 0) ∧
    ∀ va, useraddr (K_empty [0x80005000]).p.pagetable va = 0 :=
  ⟨by decide, fun _ => rfl⟩

/-- C4 (amended): for `len > 0` and an `int` value `prot`: when `prot` is not one
of 1 to 7 (it is 0 or has a bit outside bits 0-2), `sys_mmap` returns -1 and
leaves the state as it is; when `prot` is one of 1 to 7, `start` is page-aligned,
`start + len` is at most `2 ^ 64 - PAGE_SIZE`, no page of the range has a valid
entry (each is unmapped and its installation succeeds), the free list holds a
non-null page for each page of the range (allocation succeeds) and the fuel
covers the pages, `sys_mmap` returns 0 and every page of the range is mapped
with the flags `(prot << 1) | PTE_U` (and `PTE_V`). -/
theorem sys_mmap_prot (fuel : Nat) (K : Kernel) (start len : Nat) (prot flag fd : Int)
    (hlen : 0 < len) (hlo : -2 ^ 31 ≤ prot) (hhi : prot < 2 ^ 31) :
    (¬ (1 ≤ prot ∧ prot ≤ 7) → sys_mmap fuel K start len prot flag fd = .ok (ERR, K)) ∧
    ((1 ≤ prot ∧ prot ≤ 7) → start % PAGE_SIZE = 0 → start + len ≤ U64 - PAGE_SIZE →
      (∀ v, start / PAGE_SIZE ≤ v → v * PAGE_SIZE < start + len →
        ∀ e, K.p.pagetable v = some e → e.flags &&& PTE_V = 0) →
      (len + (PAGE_SIZE - 1)) / PAGE_SIZE ≤ K.kmem.length → (∀ pa ∈ K.kmem, pa ≠ 0) →
      (len + (PAGE_SIZE - 1)) / PAGE_SIZE < fuel →
      ∃ K1, sys_mmap fuel K start len prot flag fd = .ok (0, K1) ∧
        ∀ v, start / PAGE_SIZE ≤ v → v * PAGE_SIZE < start + len →
          useraddr K1.p.pagetable (v * PAGE_SIZE) ≠ 0 ∧
          ∃ pa, K1.p.pagetable v = some ⟨pa, ((prot.toNat <<< 1) ||| PTE_U) ||| PTE_V⟩) := by
  have hl : len ≠ 0 := by omega
  constructor
  · intro hp
    have hg := (prot_guards prot hlo hhi).mpr hp
    unfold sys_mmap
    simp only [hl, if_false]
    by_cases hal : PGALIGNED start = true
    swap
    · simp [hal]
    by_cases hp1 : int_and prot (int_not 7) ≠ 0
    · simp [hal, hp1]
    · have hp2 : int_and prot 7 = 0 := by tauto
      simp [hal, hp1, hp2]
  · intro hp hal hov hinst hmem hnz hf
    have hg : ¬ (int_and prot (int_not 7) ≠ 0 ∨ int_and prot 7 = 0) := by
      rw [prot_guards prot hlo hhi]
      exact not_not.mpr hp
    rw [not_or] at hg
    obtain ⟨hperm, hV, hU⟩ := perm_facts prot hp.1 hp.2
    have hlt : start + len < U64 := by
      simp only [PAGE_SIZE, U64] at *
      omega
    have hend : (start + len) % U64 = start + len := Nat.mod_eq_of_lt hlt
    obtain ⟨K1, hloop⟩ := mmap_loop_succeeds (int_or (int_shl prot 1) PTE_U).toNat (start + len)
      hov ((len + (PAGE_SIZE - 1)) / PAGE_SIZE) fuel K start hal
      (by simp only [PAGE_SIZE] at *; omega) hf hmem hnz hinst
    obtain ⟨_, hmapped, _, _⟩ := mmap_loop_true _ _ hov fuel K start K1 hal hloop
    have hpal : PGALIGNED start = true := by simpa [PGALIGNED] using hal
    refine ⟨set_max_page K1 (max K1.p.max_page (PGROUNDUP (start + len) / PAGE_SIZE)), ?_, ?_⟩
    · unfold sys_mmap
      simp only [hl, if_false, hpal, not_true_eq_false, hg.1, hg.2, hend, hloop]
    · intro v hv1 hv2
      obtain ⟨pa, hpa, he⟩ := hmapped v hv1 hv2
      have he2 : (set_max_page K1 (max K1.p.max_page
          (PGROUNDUP (start + len) / PAGE_SIZE))).p.pagetable v =
          some ⟨pa, (int_or (int_shl prot 1) PTE_U).toNat ||| PTE_V⟩ := he
      refine ⟨?_, pa, ?_⟩
      · rw [useraddr_ne_zero_iff, mul_div_page]
        exact ⟨_, he2, hV, hU, hpa⟩
      · rw [he2, hperm]

/-- Witness of C4 (amended): `prot = 8` is refused; `prot = 3` maps the two pages
of `[0x1000, 0x3000)` with the flags `(3 << 1) | PTE_U | PTE_V`. -/
theorem sys_mmap_prot_witness :
    sys_mmap 8 K_two 0x1000 0x2000 8 0 0 = .ok (ERR, K_two) ∧
    ∃ K1, sys_mmap 8 K_two 0x1000 0x2000 3 0 0 = .ok (0, K1) ∧
      ∀ v, 0x1000 / PAGE_SIZE ≤ v → v * PAGE_SIZE < 0x1000 + 0x2000 →
        useraddr K1.p.pagetable (v * PAGE_SIZE) ≠ 0 ∧
        ∃ pa, K1.p.pagetable v = some ⟨pa, (((3 : Int).toNat <<< 1) ||| PTE_U) ||| PTE_V⟩ :=
  ⟨(sys_mmap_prot 8 K_two 0x1000 0x2000 8 0 0 (by decide) (by decide) (by decide)).1
      (by decide),
   (sys_mmap_prot 8 K_two 0x1000 0x2000 3 0 0 (by decide) (by decide) (by decide)).2
      (by decide) (by decide) (by decide) (fun _ _ _ e he => by simp [K_two, K_empty] at he)
      (by decide) (by decide) (by decide)⟩

/-- C3: for a page-aligned `start`, `len > 0` with `start + len` below `2 ^ 64` and
`prot` in 1..7: when `sys_mmap (start, len, prot, _, _)` has returned 0, the call
`sys_munmap (start, len)` that follows (with fuel for the pages of the range)
returns 0, afterwards every address of `[start, start + len)` is unmapped, and
one more `sys_munmap (start, len)` returns -1. -/
theorem mmap_munmap_roundtrip (fuel fuel2 : Nat) (K K1 : Kernel) (start len : Nat)
    (prot flag fd : Int) (hal : start % PAGE_SIZE = 0) (hlen : 0 < len)
    (hov : start + len < U64) (hp1 : 1 ≤ prot) (hp7 : prot ≤ 7)
    (hmap : sys_mmap fuel K start len prot flag fd = .ok (0, K1))
    (hf : (len + (PAGE_SIZE - 1)) / PAGE_SIZE < fuel2) :
    ∃ K2, sys_munmap fuel2 K1 start len = .ok (0, K2) ∧
      (∀ va, start ≤ va → va < start + len → useraddr K2.p.pagetable va = 0) ∧
      sys_munmap fuel2 K2 start len = .ok (ERR, K2) := by
  have hl : len ≠ 0 := by omega
  have hpal : PGALIGNED start = true := by simpa [PGALIGNED] using hal
  have hne : (ERR : Nat) ≠ 0 := by decide
  have hg : ¬ (int_and prot (int_not 7) ≠ 0 ∨ int_and prot 7 = 0) := by
    rw [prot_guards prot (by omega) (by omega)]
    exact not_not.mpr ⟨hp1, hp7⟩
  rw [not_or] at hg
  obtain ⟨_, hV, hU⟩ := perm_facts prot hp1 hp7
  have hendmod : (start + len) % U64 = start + len := Nat.mod_eq_of_lt hov
  -- the loop of `sys_mmap` came to its normal end
  unfold sys_mmap at hmap
  simp only [hl, if_false, hpal, not_true_eq_false, hg.1, hg.2, hendmod] at hmap
  cases hloop : mmap_loop (int_or (int_shl prot 1) PTE_U).toNat (start + len) fuel K start with
  | error e => simp [hloop] at hmap
  | ok r =>
    obtain ⟨b, K0⟩ := r
    cases b with
    | false =>
      simp only [hloop, Except.ok.injEq, Prod.mk.injEq] at hmap
      exact absurd hmap.1 hne
    | true =>
      simp only [hloop, Except.ok.injEq, Prod.mk.injEq, true_and] at hmap
      have hend : start + len ≤ U64 - PAGE_SIZE := by
        by_contra hwrap
        exact mmap_loop_wrap _ _ (by omega) fuel K start K0 hal
          (by simp only [U64] at *; omega) hloop
      obtain ⟨_, hmapped, _, _⟩ := mmap_loop_true _ _ hend fuel K start K0 hal hloop
      have hpt1 : K1.p.pagetable = K0.p.pagetable := by
        rw [← hmap]
        rfl
      -- the loop of `sys_munmap` clears every page of the range
      obtain ⟨K2, hun, _, hcleared, _⟩ := munmap_loop_succeeds (start + len) hend
        ((len + (PAGE_SIZE - 1)) / PAGE_SIZE) fuel2 K1 start hal
        (by simp only [PAGE_SIZE] at *; omega) hf
        (by
          intro v hv1 hv2
          obtain ⟨pa, _, he⟩ := hmapped v hv1 hv2
          exact ⟨_, by rw [hpt1, he], hV, hU⟩)
      have hfirst : ∀ K3 : Kernel, K3.p.pagetable = K2.p.pagetable →
          (∀ va, start ≤ va → va < start + len → useraddr K3.p.pagetable va = 0) ∧
          sys_munmap fuel2 K3 start len = .ok (ERR, K3) := by
        intro K3 hK3
        constructor
        · intro va h1 h2
          by_contra hne0
          obtain ⟨e, he, hv, _⟩ := (useraddr_ne_zero_iff _ _).mp hne0
          rw [hK3, hcleared (va / PAGE_SIZE) (by simp only [PAGE_SIZE] at *; omega)
            (by simp only [PAGE_SIZE] at *; omega)] at he
          simp only [Option.some.injEq] at he
          subst he
          exact hv (by decide)
        · have hpos : 0 < fuel2 := lt_of_le_of_lt (Nat.zero_le _) hf
          obtain ⟨f, rfl⟩ : ∃ f, fuel2 = f + 1 := ⟨fuel2 - 1, by omega⟩
          have hw : walk K3.p.pagetable start = some ⟨0, 0⟩ := by
            unfold walk
            rw [hK3]
            refine hcleared _ (le_refl _) ?_
            have h4 : start / PAGE_SIZE * PAGE_SIZE = start := by
              simp only [PAGE_SIZE] at hal ⊢
              omega
            omega
          have hz : (0 : Nat) &&& PTE_V = 0 := by decide
          unfold sys_munmap
          simp only [hl, if_false, hpal, not_true_eq_false, hendmod]
          rw [munmap_loop]
          simp [show start < start + len by omega, hw, hz]
      have hcall : sys_munmap fuel2 K1 start len =
          .ok (0, if K2.p.max_page = PGROUNDUP (start + len) / PAGE_SIZE then
            set_max_page K2 (start / PAGE_SIZE) else K2) := by
        unfold sys_munmap
        simp only [hl, if_false, hpal, not_true_eq_false, hendmod, hun]
        split_ifs <;> rfl
      refine ⟨_, hcall, hfirst _ ?_⟩
      split_ifs <;> rfl

/-- Witness of C3: mapping `[0x1000, 0x3000)` with `prot = 3` in a process with two
free pages, then unmapping it twice. -/
theorem mmap_munmap_roundtrip_witness :
    ∃ K2, sys_munmap 8 K_mapped 0x1000 0x2000 = .ok (0, K2) ∧
      (∀ va, 0x1000 ≤ va → va < 0x1000 + 0x2000 → useraddr K2.p.pagetable va = 0) ∧
      sys_munmap 8 K2 0x1000 0x2000 = .ok (ERR, K2) :=
  mmap_munmap_roundtrip 8 8 K_two K_mapped 0x1000 0x2000 3 0 0 (by decide) (by decide)
    (by decide) (by decide) (by decide) rfl (by decide)

/-! ### The high-water mark -/

/-- Whatever the loop of `sys_munmap` returns, it leaves the high-water mark as
it was and every entry either as it was or cleared. -/
theorem munmap_loop_frame (va_end : Nat) :
    ∀ (fuel : Nat) (K : Kernel) (va : Nat) (b : Bool) (K1 : Kernel),
      munmap_loop va_end fuel K va = .ok (b, K1) →
      K1.p.max_page = K.p.max_page ∧
      ∀ v, K1.p.pagetable v = K.p.pagetable v ∨ K1.p.pagetable v = some ⟨0, 0⟩ := by
  intro fuel
  induction fuel with
  | zero =>
    intro K va b K1 h
    simp [munmap_loop] at h
  | succ f ih =>
    intro K va b K1 h
    rw [munmap_loop] at h
    by_cases hva : va < va_end
    swap
    · simp only [hva, if_false, Except.ok.injEq, Prod.mk.injEq] at h
      rw [← h.2]
      exact ⟨rfl, fun _ => Or.inl rfl⟩
    simp only [hva, if_true] at h
    cases hw : walk K.p.pagetable va with
    | none =>
      simp only [hw, Except.ok.injEq, Prod.mk.injEq] at h
      rw [← h.2]
      exact ⟨rfl, fun _ => Or.inl rfl⟩
    | some e =>
      simp only [hw] at h
      by_cases hfl : e.flags &&& PTE_V = 0 ∨ e.flags &&& PTE_U = 0
      · simp only [hfl, if_true, Except.ok.injEq, Prod.mk.injEq] at h
        rw [← h.2]
        exact ⟨rfl, fun _ => Or.inl rfl⟩
      · simp only [hfl, if_false] at h
        obtain ⟨h1, h2⟩ := ih _ _ b K1 h
        refine ⟨by rw [h1]; rfl, ?_⟩
        intro v
        rcases h2 v with h3 | h3
        · by_cases hv : v = va / PAGE_SIZE
          · right
            rw [h3]
            simp only [set_pagetable, kfree, hv, Function.update_same]
          · left
            rw [h3]
            simp only [set_pagetable, kfree, Function.update_noteq hv]
        · exact Or.inr h3

/-- When the end of the range lies in the last page of the `uint64` space, the
loop of `sys_munmap` never reaches its normal end. -/
theorem munmap_loop_wrap (va_end : Nat) (hend : U64 - PAGE_SIZE < va_end) :
    ∀ (fuel : Nat) (K : Kernel) (va : Nat) (K1 : Kernel), va % PAGE_SIZE = 0 → va < U64 →
      munmap_loop va_end fuel K va ≠ .ok (true, K1) := by
  intro fuel
  induction fuel with
  | zero =>
    intro K va K1 _ _ h
    simp [munmap_loop] at h
  | succ f ih =>
    intro K va K1 hal hlt h
    have hva : va < va_end := by
      simp only [PAGE_SIZE, U64] at *
      omega
    rw [munmap_loop] at h
    simp only [hva, if_true] at h
    cases hw : walk K.p.pagetable va with
    | none => simp [hw] at h
    | some e =>
      simp only [hw] at h
      by_cases hfl : e.flags &&& PTE_V = 0 ∨ e.flags &&& PTE_U = 0
      · simp [hfl] at h
      · simp only [hfl, if_false] at h
        refine ih _ _ K1 ?_ ?_ h
        · simp only [PAGE_SIZE, U64] at *
          omega
        · exact Nat.mod_lt _ (by decide)

/-- A normal end of the loop of `sys_munmap`, on a range that does not wrap,
leaves every entry of `[va, va_end)` cleared. -/
theorem munmap_loop_true (va_end : Nat) (hend : va_end ≤ U64 - PAGE_SIZE) :
    ∀ (fuel : Nat) (K : Kernel) (va : Nat) (K1 : Kernel), va % PAGE_SIZE = 0 →
      munmap_loop va_end fuel K va = .ok (true, K1) →
      ∀ v, va / PAGE_SIZE ≤ v → v * PAGE_SIZE < va_end → K1.p.pagetable v = some ⟨0, 0⟩ := by
  intro fuel
  induction fuel with
  | zero =>
    intro K va K1 _ h
    simp [munmap_loop] at h
  | succ f ih =>
    intro K va K1 hal h
    rw [munmap_loop] at h
    by_cases hva : va < va_end
    swap
    · intro v h1 h2
      exfalso
      simp only [PAGE_SIZE] at *
      omega
    simp only [hva, if_true] at h
    cases hw : walk K.p.pagetable va with
    | none => simp [hw] at h
    | some e =>
      simp only [hw] at h
      by_cases hfl : e.flags &&& PTE_V = 0 ∨ e.flags &&& PTE_U = 0
      · simp [hfl] at h
      · simp only [hfl, if_false, page_step va va_end hend hva] at h
        have hsucc : (va + PAGE_SIZE) / PAGE_SIZE = va / PAGE_SIZE + 1 := by
          simp only [PAGE_SIZE]
          omega
        intro v hv1 hv2
        by_cases hv : v = va / PAGE_SIZE
        · rcases (munmap_loop_frame va_end f _ _ true K1 h).2 v with h3 | h3
          · rw [h3]
            simp only [set_pagetable, kfree, hv, Function.update_same]
          · exact h3
        · refine ih _ _ K1 ?_ h v ?_ hv2
          · simp only [PAGE_SIZE] at *
            omega
          · rw [hsucc]
            omega

/-- A cleared entry does not translate. -/
theorem cleared_not_mapped (pt : pagetable_t) (v : Nat) (h : pt v = some ⟨0, 0⟩) :
    ¬ useraddr pt (v * PAGE_SIZE) ≠ 0 := by
  rw [useraddr_ne_zero_iff, mul_div_page]
  rintro ⟨e, he, hv, _⟩
  rw [h] at he
  simp only [Option.some.injEq] at he
  subst he
  exact hv (by decide)

/-- A page that translates in one table translates in every table with the same
entry for it. -/
theorem mapped_of_eq (pt1 pt2 : pagetable_t) (v : Nat) (h : pt1 v = pt2 v)
    (hm : useraddr pt1 (v * PAGE_SIZE) ≠ 0) : useraddr pt2 (v * PAGE_SIZE) ≠ 0 :=
  (useraddr_congr pt1 pt2 _ _ (by rw [mul_div_page, h])).mp hm

/-- Below the last page, `PGROUNDUP (va_end) / PAGE_SIZE` is the number of pages
needed for `va_end` bytes. -/
theorem pground (va_end : Nat) (hend : va_end ≤ U64 - PAGE_SIZE) :
    PGROUNDUP va_end / PAGE_SIZE = (va_end + (PAGE_SIZE - 1)) / PAGE_SIZE := by
  unfold PGROUNDUP
  have h : (va_end + PAGE_SIZE - 1) % U64 = va_end + PAGE_SIZE - 1 := by
    apply Nat.mod_eq_of_lt
    simp only [PAGE_SIZE, U64] at *
    omega
  rw [h]
  simp only [PAGE_SIZE] at *
  omega

/-- C9 (counterexample): two states in which `max_page` is at least the index of
every mapped page, and a call after which it is not.  In `K_top` the pages 3, 4, 5
are mapped and `max_page` is 5: `sys_munmap (0x3000, 0x2000)` returns 0, its range
ends at page 5, so it retracts `max_page` to 3 while page 5 is still mapped.  In
`K_low_mem` the pages 0 to 3 are mapped, `max_page` is 4 and one physical page is
free: `sys_mmap (0x5000, 0x2000, 3, 0, 0)` maps page 5, fails to allocate for
page 6 and returns -1 with `max_page` still 4. -/
theorem max_page_inv_counterexample :
    (max_page_inv K_top ∧
      ∃ K1, sys_munmap 8 K_top 0x3000 0x2000 = .ok (0, K1) ∧
        K1.p.max_page = 3 ∧ useraddr K1.p.pagetable (5 * PAGE_SIZE) ≠ 0 ∧
        ¬ max_page_inv K1) ∧
    (max_page_inv K_low_mem ∧
      ∃ K1, sys_mmap 8 K_low_mem 0x5000 0x2000 3 0 0 = .ok (ERR, K1) ∧
        K1.p.max_page = 4 ∧ useraddr K1.p.pagetable (5 * PAGE_SIZE) ≠ 0 ∧
        ¬ max_page_inv K1) := by
  refine ⟨⟨?_, ?_⟩, ⟨?_, ?_⟩⟩
  · intro v hv
    obtain ⟨e, he, _⟩ := (useraddr_ne_zero_iff _ _).mp hv
    rw [mul_div_page] at he
    by_contra hgt
    have h5 : ¬ (3 ≤ v ∧ v ≤ 5) := by
      simp only [K_top, K_empty] at hgt
      omega
    simp [K_top, K_empty, h5] at he
  · refine ⟨_, rfl, by decide, by decide, ?_⟩
    intro hinv
    exact absurd (hinv 5 (by decide)) (by decide)
  · intro v hv
    obtain ⟨e, he, _⟩ := (useraddr_ne_zero_iff _ _).mp hv
    rw [mul_div_page] at he
    by_contra hgt
    have h4 : ¬ v < 4 := by
      simp only [K_low_mem, K_empty] at hgt
      omega
    simp [K_low_mem, K_empty, h4] at he
  · refine ⟨_, rfl, by decide, by decide, ?_⟩
    intro hinv
    exact absurd (hinv 5 (by decide)) (by decide)

/-- C9 (amended): the predicate "`max_page` is greater than the index of every
mapped user page" is kept by every `sys_munmap` call, whatever it returns, and
by every `sys_mmap` call that returns 0 (`start` is a `uint64` value). -/
theorem max_page_bound_preserved (fuel : Nat) (K : Kernel) (start len : Nat)
    (prot flag fd : Int) (hs : start < U64) (hinv : max_page_bound K) :
    (∀ r K1, sys_munmap fuel K start len = .ok (r, K1) → max_page_bound K1) ∧
    (∀ K1, sys_mmap fuel K start len prot flag fd = .ok (0, K1) → max_page_bound K1) := by
  have hne : (ERR : Nat) ≠ 0 := by decide
  have hend_cases : start % PAGE_SIZE = 0 → (start + len) % U64 ≤ U64 - PAGE_SIZE →
      ∀ v, ¬ (start / PAGE_SIZE ≤ v ∧ v * PAGE_SIZE < (start + len) % U64) →
        v < ((start + len) % U64 + (PAGE_SIZE - 1)) / PAGE_SIZE → v < start / PAGE_SIZE := by
    intro hal hend v hv1 hv2
    simp only [PAGE_SIZE, U64] at *
    omega
  constructor
  · intro r K1 h
    unfold sys_munmap at h
    by_cases hl : len = 0
    · simp only [hl, if_true, Except.ok.injEq, Prod.mk.injEq] at h
      rw [← h.2]
      exact hinv
    simp only [hl, if_false] at h
    by_cases hpal : PGALIGNED start = true
    swap
    · simp only [hpal, Bool.false_eq_true, not_false_eq_true, if_true, Except.ok.injEq,
        Prod.mk.injEq] at h
      rw [← h.2]
      exact hinv
    have hal : start % PAGE_SIZE = 0 := by simpa [PGALIGNED] using hpal
    simp only [hpal, not_true_eq_false, if_false] at h
    cases hloop : munmap_loop ((start + len) % U64) fuel K start with
    | error e => simp [hloop] at h
    | ok res =>
      obtain ⟨b, K0⟩ := res
      obtain ⟨hmax, hfr⟩ := munmap_loop_frame _ fuel K start b K0 hloop
      have hK0 : max_page_bound K0 := by
        intro v hv
        rw [hmax]
        rcases hfr v with h3 | h3
        · exact hinv v (mapped_of_eq _ _ v h3 hv)
        · exact absurd hv (cleared_not_mapped _ v h3)
      cases b with
      | false =>
        simp only [hloop, Except.ok.injEq, Prod.mk.injEq] at h
        rw [← h.2]
        exact hK0
      | true =>
        simp only [hloop] at h
        have hend : (start + len) % U64 ≤ U64 - PAGE_SIZE := by
          by_contra hwrap
          exact munmap_loop_wrap _ (by omega) fuel K start K0 hal hs hloop
        by_cases hret : K0.p.max_page = PGROUNDUP ((start + len) % U64) / PAGE_SIZE
        · simp only [hret, if_true, Except.ok.injEq, Prod.mk.injEq] at h
          rw [← h.2]
          intro v hv
          have hv0 : useraddr K0.p.pagetable (v * PAGE_SIZE) ≠ 0 := hv
          have hlt := hK0 v hv0
          rw [hret, pground _ hend] at hlt
          refine hend_cases hal hend v ?_ hlt
          rintro ⟨h1, h2⟩
          exact cleared_not_mapped _ v
            (munmap_loop_true _ hend fuel K start K0 hal hloop v h1 h2) hv0
        · simp only [hret, if_false, Except.ok.injEq, Prod.mk.injEq] at h
          rw [← h.2]
          exact hK0
  · intro K1 h
    unfold sys_mmap at h
    by_cases hl : len = 0
    · simp only [hl, if_true, Except.ok.injEq, Prod.mk.injEq, true_and] at h
      rw [← h]
      exact hinv
    simp only [hl, if_false] at h
    by_cases hpal : PGALIGNED start = true
    swap
    · simp only [hpal, Bool.false_eq_true, not_false_eq_true, if_true, Except.ok.injEq,
        Prod.mk.injEq] at h
      exact absurd h.1 hne
    have hal : start % PAGE_SIZE = 0 := by simpa [PGALIGNED] using hpal
    simp only [hpal, not_true_eq_false, if_false] at h
    by_cases hp1 : int_and prot (int_not 7) ≠ 0
    · rw [if_pos hp1] at h
      simp only [Except.ok.injEq, Prod.mk.injEq] at h
      exact absurd h.1 hne
    rw [if_neg hp1] at h
    by_cases hp2 : int_and prot 7 = 0
    · rw [if_pos hp2] at h
      simp only [Except.ok.injEq, Prod.mk.injEq] at h
      exact absurd h.1 hne
    rw [if_neg hp2] at h
    cases hloop : mmap_loop (int_or (int_shl prot 1) PTE_U).toNat ((start + len) % U64)
        fuel K start with
    | error e => simp [hloop] at h
    | ok res =>
      obtain ⟨b, K0⟩ := res
      cases b with
      | false =>
        simp only [hloop, Except.ok.injEq, Prod.mk.injEq] at h
        exact absurd h.1 hne
      | true =>
        simp only [hloop, Except.ok.injEq, Prod.mk.injEq, true_and] at h
        have hend : (start + len) % U64 ≤ U64 - PAGE_SIZE := by
          by_contra hwrap
          exact mmap_loop_wrap _ _ (by omega) fuel K start K0 hal hs hloop
        obtain ⟨hmax, hin, hout, _⟩ := mmap_loop_true _ _ hend fuel K start K0 hal hloop
        rw [← h]
        intro v hv
        have hv0 : useraddr K0.p.pagetable (v * PAGE_SIZE) ≠ 0 := hv
        show v < max K0.p.max_page (PGROUNDUP ((start + len) % U64) / PAGE_SIZE)
        rw [pground _ hend, hmax]
        by_cases hr : start / PAGE_SIZE ≤ v ∧ v * PAGE_SIZE < (start + len) % U64
        · apply lt_max_of_lt_right
          simp only [PAGE_SIZE] at *
          omega
        · apply lt_max_of_lt_left
          apply hinv v
          refine mapped_of_eq _ _ v (hout v ?_) hv0
          simp only [PAGE_SIZE] at *
          omega

/-- Witness of C9 (amended): in a process with nothing mapped and `max_page = 0`,
mapping `[0x1000, 0x3000)` and then unmapping it keeps the bound. -/
theorem max_page_bound_preserved_witness :
    max_page_bound K_mapped ∧
    (∀ r K1, sys_munmap 8 K_mapped 0x1000 0x2000 = .ok (r, K1) → max_page_bound K1) :=
  have h0 : max_page_bound K_two := fun v hv => absurd hv (by
    rw [useraddr_ne_zero_iff]
    rintro ⟨e, he, _⟩
    simp [K_two, K_empty] at he)
  have h1 : max_page_bound K_mapped :=
    (max_page_bound_preserved 8 K_two 0x1000 0x2000 3 0 0 (by decide) h0).2
      K_mapped rfl
  ⟨h1, (max_page_bound_preserved 8 K_mapped 0x1000 0x2000 3 0 0 (by decide) h1).1⟩

end THUOS
